import Mathlib

/-!
Verification of the tg-assistant media upload pipeline.

Strings are modelled as `List Char`, Go `int64` values as `Int` (file sizes,
durations and bitrates in this program stay far below 2^63, so two's-complement
wrap-around never occurs on the modelled paths), and every fallible Go call
as `Option`/`Except`.  External collaborators (ffmpeg/ffprobe subprocesses,
the filesystem, the Telegram transport) are modelled as environment records
whose fields give the outcome of each external call; the functions under
verification are transcribed from the Go sources and consume those outcomes
exactly where the source performs the call.
-/

/-! ## Go string primitives (path/strings packages) -/

/-- Helper for `filepath.Ext`, working on the reversed path: returns the
reversed extension, i.e. the prefix of the reversed path up to and including
the first '.', stopping (with empty result) at a path separator or at the
start of the string. -/
def extRev : List Char → List Char
  | [] => []
  | c :: rest =>
    if c = '/' then []
    else if c = '.' then [c]
    else
      match extRev rest with
      | [] => []
      | e => c :: e

/-- Go `filepath.Ext`: the suffix beginning at the final dot in the final
slash-separated element of the path; empty if there is no dot. -/
def goExt (s : List Char) : List Char :=
  (extRev s.reverse).reverse

/-- Go `strings.TrimSuffix`: drop `suffix` from the end of `s` when present,
otherwise return `s` unchanged. -/
def trimSuffix (s suffix : List Char) : List Char :=
  if suffix.isSuffixOf s then s.take (s.length - suffix.length) else s

/-- Go `filepath.Base`: the last element of the path, after stripping
trailing separators; "." for the empty path, "/" for a path of separators. -/
def goBase (p : List Char) : List Char :=
  if p = [] then ['.']
  else
    let q := (p.reverse.dropWhile (fun c => c = '/')).reverse
    if q = [] then ['/']
    else (q.reverse.takeWhile (fun c => c ≠ '/')).reverse

/-- Go `strings.SplitN(s, "_", 2)` in structured form: `none` when `s`
contains no underscore (Go returns the one-element slice `[s]`), otherwise
the parts before and after the first underscore. -/
def splitFirstUnderscore : List Char → Option (List Char × List Char)
  | [] => none
  | c :: rest =>
    if c = '_' then some ([], rest)
    else
      match splitFirstUnderscore rest with
      | some (a, b) => some (c :: a, b)
      | none => none

/-- Go `strings.ReplaceAll(s, "_", " ")` for the single-character pattern. -/
def replaceUnderscore : List Char → List Char
  | [] => []
  | c :: rest => (if c = '_' then ' ' else c) :: replaceUnderscore rest

/-- `ParseFilename` (internal/fileprocessor/processor.go): strips the
extension, splits on the first underscore, and fails (the Go function
returns an error) when there is no underscore or either part is empty. -/
def ParseFilename (filename : List Char) : Option (List Char × List Char) :=
  let nameWithoutExt := trimSuffix filename (goExt filename)
  match splitFirstUnderscore nameWithoutExt with
  | none => none
  | some (tag, description) =>
    if tag = [] ∨ description = [] then none else some (tag, description)

/-- `BuildCaption` (internal/fileprocessor/processor.go):
`fmt.Sprintf("#%s %s", tag, strings.ReplaceAll(description, "_", " "))`. -/
def BuildCaption (tag description : List Char) : List Char :=
  '#' :: (tag ++ ' ' :: replaceUnderscore description)

/-- `IsVideoFile` (internal/fileprocessor/processor.go): lower-cased
extension membership in the fixed video-extension list. -/
def IsVideoFile (filename : List Char) : Bool :=
  let ext := (goExt filename).map Char.toLower
  [".mp4".toList, ".avi".toList, ".mov".toList,
   ".mkv".toList, ".webm".toList, ".flv".toList].contains ext

/-! ## Characterisation lemmas for the parsing primitives -/

theorem splitFirstUnderscore_eq_some_iff (s t d : List Char) :
    splitFirstUnderscore s = some (t, d) ↔ s = t ++ '_' :: d ∧ '_' ∉ t := by
  induction s generalizing t d with
  | nil =>
    constructor
    · intro h; simp [splitFirstUnderscore] at h
    · rintro ⟨h, -⟩; exact absurd h (by simp)
  | cons c rest ih =>
    by_cases hc : c = '_'
    · subst hc
      simp only [splitFirstUnderscore, if_true, reduceIte, Option.some.injEq, Prod.mk.injEq]
      constructor
      · rintro ⟨rfl, rfl⟩
        simp
      · rintro ⟨heq, hnot⟩
        cases t with
        | nil =>
          simp only [List.nil_append, List.cons.injEq] at heq
          exact ⟨rfl, heq.2⟩
        | cons x ts =>
          simp only [List.cons_append, List.cons.injEq] at heq
          exact absurd (heq.1 ▸ List.mem_cons_self x ts) hnot
    · rcases hsp : splitFirstUnderscore rest with _ | ⟨a, b⟩
      · simp only [splitFirstUnderscore, if_neg hc, hsp]
        constructor
        · intro h; exact absurd h (by simp)
        · rintro ⟨heq, hnot⟩
          cases t with
          | nil =>
            simp only [List.nil_append, List.cons.injEq] at heq
            exact absurd heq.1 hc
          | cons x ts =>
            simp only [List.cons_append, List.cons.injEq] at heq
            have h2 : splitFirstUnderscore rest = some (ts, d) :=
              (ih ts d).mpr ⟨heq.2, fun hm => hnot (List.mem_cons_of_mem x hm)⟩
            rw [hsp] at h2
            exact absurd h2 (by simp)
      · have ha := (ih a b).mp hsp
        simp only [splitFirstUnderscore, if_neg hc, hsp, Option.some.injEq, Prod.mk.injEq]
        constructor
        · rintro ⟨rfl, rfl⟩
          refine ⟨by rw [ha.1]; rfl, ?_⟩
          intro hm
          rcases List.mem_cons.mp hm with h | h
          · exact hc h.symm
          · exact ha.2 h
        · rintro ⟨heq, hnot⟩
          cases t with
          | nil =>
            simp only [List.nil_append, List.cons.injEq] at heq
            exact absurd heq.1 hc
          | cons x ts =>
            simp only [List.cons_append, List.cons.injEq] at heq
            have h2 : splitFirstUnderscore rest = some (ts, d) :=
              (ih ts d).mpr ⟨heq.2, fun hm => hnot (List.mem_cons_of_mem x hm)⟩
            rw [hsp, Option.some.injEq, Prod.mk.injEq] at h2
            exact ⟨by rw [heq.1, h2.1], h2.2⟩

theorem replaceUnderscore_eq_map (s : List Char) :
    replaceUnderscore s = s.map (fun c => if c = '_' then ' ' else c) := by
  induction s with
  | nil => rfl
  | cons c rest ih => simp [replaceUnderscore, ih]

/-- **C1.** `ParseFilename` succeeds exactly when the extension-stripped name
decomposes as `tag ++ "_" ++ description` with an underscore-free, non-empty
tag and a non-empty description (i.e. the name splits on its first underscore
into two non-empty parts), and it returns that tag and description; and
`BuildCaption` returns `"#" ++ tag ++ " " ++ description` with every
underscore of the description replaced by a space. -/
theorem parseFilename_buildCaption_spec (filename tag description : List Char) :
    (ParseFilename filename = some (tag, description) ↔
      (trimSuffix filename (goExt filename) = tag ++ '_' :: description ∧
        '_' ∉ tag ∧ tag ≠ [] ∧ description ≠ [])) ∧
    BuildCaption tag description =
      '#' :: (tag ++ ' ' :: description.map (fun c => if c = '_' then ' ' else c)) := by
  constructor
  · unfold ParseFilename
    rcases h : splitFirstUnderscore (trimSuffix filename (goExt filename)) with _ | ⟨a, b⟩
    · simp only [h]
      constructor
      · intro hfalse; exact absurd hfalse (by simp)
      · rintro ⟨heq, hnot, -, -⟩
        have h2 : splitFirstUnderscore (trimSuffix filename (goExt filename)) =
            some (tag, description) :=
          (splitFirstUnderscore_eq_some_iff _ _ _).mpr ⟨heq, hnot⟩
        rw [h] at h2
        exact absurd h2 (by simp)
    · have hab := (splitFirstUnderscore_eq_some_iff _ a b).mp h
      simp only [h]
      by_cases he : a = [] ∨ b = []
      · simp only [if_pos he]
        constructor
        · intro hfalse; exact absurd hfalse (by simp)
        · rintro ⟨heq, hnot, htag, hdesc⟩
          have h2 : splitFirstUnderscore (trimSuffix filename (goExt filename)) =
              some (tag, description) :=
            (splitFirstUnderscore_eq_some_iff _ _ _).mpr ⟨heq, hnot⟩
          rw [h, Option.some.injEq, Prod.mk.injEq] at h2
          rcases he with he | he
          · exact absurd (h2.1 ▸ he) htag
          · exact absurd (h2.2 ▸ he) hdesc
      · simp only [if_neg he, Option.some.injEq, Prod.mk.injEq]
        push_neg at he
        constructor
        · rintro ⟨rfl, rfl⟩
          exact ⟨hab.1, hab.2, he.1, he.2⟩
        · rintro ⟨heq, hnot, -, -⟩
          have h2 : splitFirstUnderscore (trimSuffix filename (goExt filename)) =
              some (tag, description) :=
            (splitFirstUnderscore_eq_some_iff _ _ _).mpr ⟨heq, hnot⟩
          rw [h, Option.some.injEq, Prod.mk.injEq] at h2
          exact ⟨h2.1, h2.2⟩
  · simp [BuildCaption, replaceUnderscore_eq_map]

/-- Witness for C1 at a concrete filename: `travel_sunset_beach.jpg` parses
to tag `travel` and description `sunset_beach`, whose caption reads
`#travel sunset beach`. -/
theorem parseFilename_buildCaption_spec_witness :
    trimSuffix "travel_sunset_beach.jpg".toList (goExt "travel_sunset_beach.jpg".toList) =
        "travel".toList ++ '_' :: "sunset_beach".toList ∧
      ParseFilename "travel_sunset_beach.jpg".toList =
        some ("travel".toList, "sunset_beach".toList) ∧
      BuildCaption "travel".toList "sunset_beach".toList = "#travel sunset beach".toList := by
  refine ⟨by decide, ?_, ?_⟩
  · exact (parseFilename_buildCaption_spec "travel_sunset_beach.jpg".toList
      "travel".toList "sunset_beach".toList).1.mpr
      ⟨by decide, by decide, by decide, by decide⟩
  · exact (parseFilename_buildCaption_spec "travel_sunset_beach.jpg".toList
      "travel".toList "sunset_beach".toList).2.trans (by decide)

/-! ## Numeric rendering and Go integer division -/

/-- Decimal rendering of a natural number (the digits of Go `fmt` `%d`). -/
def natToStr (n : Nat) : List Char := (Nat.repr n).toList

/-- Go `fmt` `%d` applied to an `int64`. -/
def intToStr (i : Int) : List Char :=
  if i < 0 then '-' :: natToStr i.natAbs else natToStr i.toNat

/-- Go `fmt` `%03d`: decimal digits zero-padded to a minimum width of 3. -/
def pad3 (n : Nat) : List Char :=
  List.replicate (3 - (natToStr n).length) '0' ++ natToStr n

/-- `filepath.Join` for a plain directory name and a file name.  The
path-cleaning step of Go's `Join` is omitted: the repository only joins
literal directory names from configuration with produced file names. -/
def joinPath (dir name : List Char) : List Char := dir ++ '/' :: name

/-- Go `int64` division: truncation toward zero; a zero divisor is a
run-time panic in Go, modelled as `none`. -/
def goDiv (a b : Int) : Option Int :=
  if b = 0 then none else some (Int.tdiv a b)

/-! ## strconv parsing (for the ffprobe bitrate output) -/

/-- The whitespace class of Go `strings.TrimSpace` restricted to Latin-1
(space, tab, newline, vertical tab, form feed, carriage return, NEL and
non-breaking space); ffprobe output contains no other code points. -/
def isGoSpace (c : Char) : Bool :=
  [' ', '\t', '\n', Char.ofNat 11, Char.ofNat 12, '\r',
   Char.ofNat 133, Char.ofNat 160].contains c

/-- Go `strings.TrimSpace`. -/
def goTrimSpace (s : List Char) : List Char :=
  ((s.dropWhile isGoSpace).reverse.dropWhile isGoSpace).reverse

/-- One decimal digit, or `none` for any other character. -/
def decDigit (c : Char) : Option Nat :=
  if '0' ≤ c ∧ c ≤ '9' then some (c.toNat - '0'.toNat) else none

/-- Left-to-right accumulation of decimal digits; fails at the first
non-digit character. -/
def digitsToNatAux (acc : Nat) : List Char → Option Nat
  | [] => some acc
  | c :: rest =>
    match decDigit c with
    | none => none
    | some d => digitsToNatAux (acc * 10 + d) rest

/-- A non-empty all-digit string to its value. -/
def digitsToNat (s : List Char) : Option Nat :=
  match s with
  | [] => none
  | _ => digitsToNatAux 0 s

/-- Go `strconv.ParseInt(s, 10, 64)`: optional sign, at least one decimal
digit, failure on the empty string, any non-digit, or an out-of-range value
(Go reports `ErrRange`, which every caller here treats as failure). -/
def goParseInt64 (s : List Char) : Option Int :=
  match s with
  | [] => none
  | '+' :: rest =>
    (digitsToNat rest).bind fun n =>
      if n ≤ 2 ^ 63 - 1 then some (n : Int) else none
  | '-' :: rest =>
    (digitsToNat rest).bind fun n =>
      if n ≤ 2 ^ 63 then some (-(n : Int)) else none
  | _ =>
    (digitsToNat s).bind fun n =>
      if n ≤ 2 ^ 63 - 1 then some (n : Int) else none

/-! ## Video probing and splitting -/

/-- `GetVideoBitrate` (internal/ffmpeg, part_009 lines 54-75): `raw` is the
outcome of the ffprobe `format=bit_rate` invocation (`none` = subprocess
error, `some out` = its combined output); the output is trimmed and parsed
with `strconv.ParseInt(_, 10, 64)`. -/
def GetVideoBitrate (raw : Option (List Char)) : Option Int :=
  match raw with
  | none => none
  | some out => goParseInt64 (goTrimSpace out)

/-- Environment of one `splitVideoV2` run: the outcome of every external
call it performs, in source order. -/
structure SplitV2Env where
  /-- `os.Stat` size of the input video; `none` = stat error. -/
  fileSize : Option Int
  /-- `os.MkdirAll` outcome for the output directory. -/
  mkdirOk : Bool
  /-- `ffmpeg.GetVideoDurationSeconds` result, i.e. `int64` truncation of the
  parsed float duration; `none` = subprocess or parse error. -/
  durSec : Option Int
  /-- Raw ffprobe `format=bit_rate` output; `none` = subprocess error. -/
  bitrateOut : Option (List Char)
  /-- `ffmpeg.GenerateTSFiles` outcome for a given `segment_time`. -/
  genTSOk : Int → Bool
  /-- `filepath.Glob` listing of the produced `.ts` files (the source
  discards the glob error, so a failed glob is the empty listing). -/
  tsFiles : List (List Char)
  /-- `ffmpeg.RemuxTSFile` outcome per `.ts` file. -/
  remuxOk : List Char → Bool

/-- Errors of the two splitter implementations. -/
inductive SplitErr where
  | statFail | mkdirFail | durFail | bitrateFail | divByZero
  | lookPathFail | runFail | noChunks | genTSFail | remuxFail
  deriving DecidableEq

/-- Remux loop of `splitVideoV2` (part_014 lines 312-324): each produced
`.ts` file is remuxed in order to `<basename>_<idx><ext>`; the first remux
failure aborts the whole call. -/
def remuxSegs (env : SplitV2Env) (outputDir basename ext : List Char) :
    List (List Char) → Nat → Except SplitErr (List (List Char))
  | [], _ => .ok []
  | ts :: rest, idx =>
    if env.remuxOk ts then
      match remuxSegs env outputDir basename ext rest (idx + 1) with
      | .ok r => .ok (joinPath outputDir (basename ++ '_' :: natToStr idx ++ ext) :: r)
      | .error e => .error e
    else .error .remuxFail

/-- `splitVideoV2` (part_014 lines 252-327).  All divisions are Go `int64`
divisions (`goDiv`); `divByZero` is the run-time panic Go raises on a zero
divisor, reachable only when the probed duration or the computed bitrate
is zero. -/
def splitVideoV2 (env : SplitV2Env) (videoPath : List Char) (maxSize : Int)
    (outputDir : List Char) : Except SplitErr (List (List Char)) :=
  match env.fileSize with
  | none => .error .statFail
  | some fileSize =>
    let fname := goBase videoPath
    let ext := goExt fname
    let basename := trimSuffix fname ext
    if maxSize ≤ 0 ∨ fileSize ≤ maxSize then .ok [videoPath]
    else if ¬ env.mkdirOk then .error .mkdirFail
    else
      match env.durSec with
      | none => .error .durFail
      | some durSec =>
        match GetVideoBitrate env.bitrateOut with
        | none => .error .bitrateFail
        | some probed =>
          match (if probed ≤ 0 then goDiv (fileSize * 8) durSec else some probed) with
          | none => .error .divByZero
          | some bitrate =>
            match goDiv (maxSize * 8) bitrate with
            | none => .error .divByZero
            | some st =>
              let segmentTime := if st < 1 then 1 else st
              if ¬ env.genTSOk segmentTime then .error .genTSFail
              else remuxSegs env outputDir basename ext env.tsFiles 0

/-- Environment of one `SplitVideo` (splitter.go) run. -/
structure SplitV1Env where
  /-- `os.Stat` size of the input video; `none` = stat error. -/
  fileSize : Option Int
  /-- `exec.LookPath("ffmpeg")` success. -/
  ffmpegInPath : Bool
  /-- `os.MkdirAll` outcome. -/
  mkdirOk : Bool
  /-- ffmpeg segment command outcome. -/
  runOk : Bool
  /-- `os.Stat` existence of the i-th produced chunk path. -/
  chunkExists : Nat → Bool

/-- Chunk-collection loop of `SplitVideo` (splitter.go lines 67-77): probe
candidate paths `0, 1, ...` in order for at most `fuel` steps, stopping at
the first missing one. -/
def collectChunks (chunkExists : Nat → Bool) (name : Nat → List Char) :
    Nat → Nat → List (List Char)
  | 0, _ => []
  | fuel + 1, i =>
    if chunkExists i then name i :: collectChunks chunkExists name fuel (i + 1)
    else []

/-- Chunk file name `<basename>_part%03d<ext>` written by the ffmpeg segment
muxer invocation of `SplitVideo`. -/
def chunkName (outputDir basename ext : List Char) (i : Nat) : List Char :=
  joinPath outputDir (basename ++ "_part".toList ++ pad3 i ++ ext)

/-- `SplitVideo` (internal/video/splitter.go lines 13-84).  `numChunks` is
`math.Ceil(float64(fileSize) / float64(maxSize))`, computed here as exact
ceiling division (the float64 quotient is exact for real file sizes, which
lie below 2^53); it only bounds the chunk-collection loop. -/
def SplitVideo (env : SplitV1Env) (videoPath : List Char) (maxSize : Int)
    (outputDir : List Char) : Except SplitErr (List (List Char)) :=
  match env.fileSize with
  | none => .error .statFail
  | some fileSize =>
    if maxSize ≤ 0 ∨ fileSize ≤ maxSize then .ok [videoPath]
    else if ¬ env.ffmpegInPath then .error .lookPathFail
    else if ¬ env.mkdirOk then .error .mkdirFail
    else
      let numChunks := Int.tdiv (fileSize + maxSize - 1) maxSize
      let ext := goExt videoPath
      let baseName := trimSuffix (goBase videoPath) ext
      if ¬ env.runOk then .error .runFail
      else
        let chunks := collectChunks env.chunkExists
          (chunkName outputDir baseName ext) (numChunks + 2).toNat 0
        if chunks = [] then .error .noChunks else .ok chunks

/-- `ValidateChunkCount` (internal/video/splitter.go lines 86-97): the total
item count `1 + numVideoParts` must not exceed Telegram's album cap of 10;
`none` models the returned error. -/
def ValidateChunkCount (numVideoParts : Int) : Option Unit :=
  if 1 + numVideoParts > 10 then none else some ()

/-! ## Relocation file names -/

/-- Destination file name computed by `Processor.MoveFile`
(internal/fileprocessor/processor.go lines 87-94):
`fmt.Sprintf("%s_msgid_%d%s", nameWithoutExt, messageID, ext)`. -/
def MoveFileDestName (filename : List Char) (messageID : Int) : List Char :=
  let ext := goExt filename
  let nameWithoutExt := trimSuffix filename ext
  nameWithoutExt ++ "_msgid_".toList ++ intToStr messageID ++ ext

/-- Destination name of the original video in `MoveVideoFiles`
(internal/video/uploader.go lines 145-157): the same `_msgid_` pattern. -/
def MoveVideoFilesOrigDestName (originalFilename : List Char) (messageID : Int) : List Char :=
  let ext := goExt originalFilename
  let nameWithoutExt := trimSuffix originalFilename ext
  nameWithoutExt ++ "_msgid_".toList ++ intToStr messageID ++ ext

/-- Destination name of an additional (derived) file in `MoveVideoFiles`
(internal/video/uploader.go lines 160-171): the `_msgid_` pattern applied to
the derived file's own base name and extension. -/
def MoveVideoFilesAddDestName (addFile : List Char) (messageID : Int) : List Char :=
  let addBasename := goBase addFile
  let addExt := goExt addFile
  let addNameWithoutExt := trimSuffix addBasename addExt
  addNameWithoutExt ++ "_msgid_".toList ++ intToStr messageID ++ addExt

/-- Destination name of the original video in the server revision's
`MoveVideoFiles` (part_014 lines 233-246): `fmt.Sprintf("%s%s",
nameWithoutExt, ext)` — no `_msgid_` component, and the function receives no
delivery identifier at all. -/
def MoveVideoFilesV2DestName (originalFilename : List Char) : List Char :=
  let ext := goExt originalFilename
  let nameWithoutExt := trimSuffix originalFilename ext
  nameWithoutExt ++ ext

/-! ## Shared lemmas about the splitters -/

theorem ite_lt_one_eq_max (st : Int) : (if st < 1 then 1 else st) = max 1 st := by
  rcases lt_or_le st 1 with h | h
  · rw [if_pos h, max_eq_left h.le]
  · rw [if_neg (not_lt.mpr h), max_eq_right h]

/-- In the splitting branch, `splitVideoV2` hands the external segmenter the
segment duration `max 1 ((maxSize*8) / bitrate)` where `bitrate` is the
probed value when positive and the size/duration estimate otherwise. -/
theorem splitVideoV2_split_eq (env : SplitV2Env) (videoPath outputDir : List Char)
    (maxSize fileSize durSec probed bitrate : Int)
    (hfs : env.fileSize = some fileSize)
    (hbig : ¬ (maxSize ≤ 0 ∨ fileSize ≤ maxSize))
    (hmk : env.mkdirOk = true)
    (hdur : env.durSec = some durSec)
    (hbr : GetVideoBitrate env.bitrateOut = some probed)
    (hnopanic : probed ≤ 0 → durSec ≠ 0)
    (hbitrate : bitrate = (if 0 < probed then probed else Int.tdiv (fileSize * 8) durSec))
    (hbz : bitrate ≠ 0) :
    splitVideoV2 env videoPath maxSize outputDir =
      (if env.genTSOk (max 1 (Int.tdiv (maxSize * 8) bitrate)) then
        remuxSegs env outputDir
          (trimSuffix (goBase videoPath) (goExt (goBase videoPath)))
          (goExt (goBase videoPath)) env.tsFiles 0
      else .error .genTSFail) := by
  unfold splitVideoV2
  rw [hfs]
  simp only [if_neg hbig, hmk, not_true, if_false, hdur, hbr]
  have hbit : (if probed ≤ 0 then goDiv (fileSize * 8) durSec else some probed) = some bitrate := by
    by_cases hp : 0 < probed
    · rw [if_neg (not_le.mpr hp), hbitrate, if_pos hp]
    · have hple : probed ≤ 0 := not_lt.mp hp
      rw [if_pos hple]
      unfold goDiv
      rw [if_neg (hnopanic hple), hbitrate, if_neg hp]
  rw [hbit]
  dsimp only
  unfold goDiv
  rw [if_neg hbz]
  dsimp only
  rw [ite_lt_one_eq_max]
  by_cases hg : env.genTSOk (max 1 (Int.tdiv (maxSize * 8) bitrate)) = true
  · rw [if_pos hg]
    simp only [hg, not_true, if_false]
  · rw [if_neg hg]
    simp only [Bool.not_eq_true] at hg
    simp [hg]

/-- When the bitrate probe's output fails to parse, `splitVideoV2` fails the
file with the bitrate error. -/
theorem splitVideoV2_bitrateFail (env : SplitV2Env) (videoPath outputDir : List Char)
    (maxSize fileSize durSec : Int)
    (hfs : env.fileSize = some fileSize)
    (hbig : ¬ (maxSize ≤ 0 ∨ fileSize ≤ maxSize))
    (hmk : env.mkdirOk = true)
    (hdur : env.durSec = some durSec)
    (hbr : GetVideoBitrate env.bitrateOut = none) :
    splitVideoV2 env videoPath maxSize outputDir = .error .bitrateFail := by
  unfold splitVideoV2
  rw [hfs]
  dsimp only
  rw [if_neg hbig]
  simp only [hmk, not_true, if_false]
  rw [hdur]
  dsimp only
  rw [hbr]

theorem remuxSegs_ok_length (env : SplitV2Env) (outputDir basename ext : List Char)
    (ts : List (List Char)) (i : Nat) (r : List (List Char))
    (h : remuxSegs env outputDir basename ext ts i = .ok r) :
    r.length = ts.length := by
  induction ts generalizing i r with
  | nil =>
    unfold remuxSegs at h
    rw [Except.ok.injEq] at h
    subst h; rfl
  | cons t rest ih =>
    unfold remuxSegs at h
    by_cases hr : env.remuxOk t = true
    · rw [if_pos hr] at h
      rcases h2 : remuxSegs env outputDir basename ext rest (i + 1) with e | r'
      · rw [h2] at h; exact absurd h (by simp)
      · rw [h2] at h
        rw [Except.ok.injEq] at h
        subst h
        simp [ih (i + 1) r' h2]
    · rw [if_neg hr] at h
      exact absurd h (by simp)

/-! ## C2: no-op plan and the segment-duration formula -/

/-- **C2.** Whenever `maxSize ≤ 0` or `fileSize ≤ maxSize`, the segmentation
plan of both splitter implementations is exactly the single original path;
otherwise the segment duration `splitVideoV2` hands the external segmenter
equals `(maxSize*8) / bitrate` in truncated integer seconds with a minimum
of 1, where `bitrate` is the probed bitrate when it is positive and the
estimate `(fileSize*8) / durSec` otherwise. -/
theorem segmentation_noop_and_duration_formula (env : SplitV2Env) (env1 : SplitV1Env)
    (videoPath outputDir : List Char) (maxSize fileSize durSec probed bitrate : Int) :
    (env.fileSize = some fileSize → (maxSize ≤ 0 ∨ fileSize ≤ maxSize) →
      splitVideoV2 env videoPath maxSize outputDir = .ok [videoPath]) ∧
    (env1.fileSize = some fileSize → (maxSize ≤ 0 ∨ fileSize ≤ maxSize) →
      SplitVideo env1 videoPath maxSize outputDir = .ok [videoPath]) ∧
    (env.fileSize = some fileSize → ¬ (maxSize ≤ 0 ∨ fileSize ≤ maxSize) →
      env.mkdirOk = true → env.durSec = some durSec →
      GetVideoBitrate env.bitrateOut = some probed →
      (probed ≤ 0 → durSec ≠ 0) →
      bitrate = (if 0 < probed then probed else Int.tdiv (fileSize * 8) durSec) →
      bitrate ≠ 0 →
      splitVideoV2 env videoPath maxSize outputDir =
        (if env.genTSOk (max 1 (Int.tdiv (maxSize * 8) bitrate)) then
          remuxSegs env outputDir
            (trimSuffix (goBase videoPath) (goExt (goBase videoPath)))
            (goExt (goBase videoPath)) env.tsFiles 0
        else .error .genTSFail)) := by
  refine ⟨?_, ?_, ?_⟩
  · intro hfs hle
    unfold splitVideoV2
    rw [hfs]
    dsimp only
    rw [if_pos hle]
  · intro hfs hle
    unfold SplitVideo
    rw [hfs]
    dsimp only
    rw [if_pos hle]
  · intro hfs hbig hmk hdur hbr hnp hb hbz
    exact splitVideoV2_split_eq env videoPath outputDir maxSize fileSize durSec probed
      bitrate hfs hbig hmk hdur hbr hnp hb hbz

/-- Environment for the C2 witness, no-split side: a 50-byte file under a
100-byte cap; the probe and segmenter fields are never consulted. -/
def c2EnvNoSplit : SplitV2Env :=
  { fileSize := some 50, mkdirOk := true, durSec := none, bitrateOut := none,
    genTSOk := fun _ => false, tsFiles := [], remuxOk := fun _ => false }

/-- Environment for the C2 witness, `SplitVideo` no-split side. -/
def c2EnvV1NoSplit : SplitV1Env :=
  { fileSize := some 50, ffmpegInPath := false, mkdirOk := false, runOk := false,
    chunkExists := fun _ => false }

/-- Environment for the C2 witness, split side: a 100 MB file, 50 s duration,
probed bitrate 16 Mb/s, one produced segment file. -/
def c2EnvSplit : SplitV2Env :=
  { fileSize := some 100000000, mkdirOk := true, durSec := some 50,
    bitrateOut := some "16000000".toList, genTSOk := fun _ => true,
    tsFiles := ["part.ts".toList], remuxOk := fun _ => true }

/-- Witness for C2 at concrete inputs: the no-split branch of both splitters
returns the original path, and the split branch at cap 2 MB and bitrate
16 Mb/s cuts with segment duration 1 s and returns the remuxed segment. -/
theorem segmentation_noop_and_duration_formula_witness :
    splitVideoV2 c2EnvNoSplit "v.mp4".toList 100 "tmp".toList = .ok ["v.mp4".toList] ∧
    SplitVideo c2EnvV1NoSplit "v.mp4".toList 100 "tmp".toList = .ok ["v.mp4".toList] ∧
    splitVideoV2 c2EnvSplit "v.mp4".toList 2000000 "tmp".toList = .ok ["tmp/v_0.mp4".toList] := by
  refine ⟨?_, ?_, ?_⟩
  · exact (segmentation_noop_and_duration_formula c2EnvNoSplit c2EnvV1NoSplit
      "v.mp4".toList "tmp".toList 100 50 0 0 0).1 rfl (by decide)
  · exact (segmentation_noop_and_duration_formula c2EnvNoSplit c2EnvV1NoSplit
      "v.mp4".toList "tmp".toList 100 50 0 0 1).2.1 rfl (by decide)
  · exact ((segmentation_noop_and_duration_formula c2EnvSplit c2EnvV1NoSplit
      "v.mp4".toList "tmp".toList 2000000 100000000 50 16000000 16000000).2.2
      rfl (by decide) rfl rfl (by decide) (by decide) (by decide) (by decide)).trans
      (by rfl)

/-! ## C6: relocation file names -/

/-- **C6 (code bug).** The uploader pipeline's relocators implement the
documented contract — `Processor.MoveFile` and both name computations of the
`MoveVideoFiles` revision that receives a message id produce exactly
`<stem>_msgid_<id><ext>` — but the server revision's `MoveVideoFiles`
(part_014), called after a successful album delivery, moves the original
video under its unchanged name: it receives no delivery identifier and emits
no `_msgid_` component, contradicting the repository's own specification
(`src/spec/uploader/spec.md`, "Rename file to include message ID:
originalname_msgid_<message_id>.ext"). -/
theorem moveVideoFilesV2_drops_msgid :
    MoveVideoFilesV2DestName "tutorial_golang_basics.mp4".toList =
        "tutorial_golang_basics.mp4".toList ∧
      MoveFileDestName "tutorial_golang_basics.mp4".toList 12345 =
        "tutorial_golang_basics_msgid_12345.mp4".toList ∧
      MoveVideoFilesOrigDestName "tutorial_golang_basics.mp4".toList 12345 =
        "tutorial_golang_basics_msgid_12345.mp4".toList ∧
      MoveVideoFilesAddDestName "tmp/tutorial_golang_basics_0.mp4".toList 12345 =
        "tutorial_golang_basics_0_msgid_12345.mp4".toList ∧
      MoveVideoFilesV2DestName "tutorial_golang_basics.mp4".toList ≠
        MoveFileDestName "tutorial_golang_basics.mp4".toList 12345 := by
  refine ⟨by decide, by decide, by decide, by decide, by decide⟩

/-! ## C7: zero versus empty bitrate probe output -/

/-- **C7 (amended).** A probed bitrate of 0 (the literal probe output "0") is
not an error: segmentation proceeds using the estimated bitrate
`(fileSize*8) / durSec` in place of the probed value.  An empty probe
output, however, fails `strconv.ParseInt`, and segmentation then fails the
file with an error instead of estimating. -/
theorem bitrate_zero_estimates_but_empty_fails (env : SplitV2Env)
    (videoPath outputDir raw : List Char) (maxSize fileSize durSec : Int) :
    GetVideoBitrate (some "0".toList) = some 0 ∧
    (goTrimSpace raw = [] → GetVideoBitrate (some raw) = none) ∧
    (env.fileSize = some fileSize → ¬ (maxSize ≤ 0 ∨ fileSize ≤ maxSize) →
      env.mkdirOk = true → env.durSec = some durSec →
      GetVideoBitrate env.bitrateOut = some 0 →
      durSec ≠ 0 → Int.tdiv (fileSize * 8) durSec ≠ 0 →
      splitVideoV2 env videoPath maxSize outputDir =
        (if env.genTSOk (max 1 (Int.tdiv (maxSize * 8) (Int.tdiv (fileSize * 8) durSec))) then
          remuxSegs env outputDir
            (trimSuffix (goBase videoPath) (goExt (goBase videoPath)))
            (goExt (goBase videoPath)) env.tsFiles 0
        else .error .genTSFail)) ∧
    (env.fileSize = some fileSize → ¬ (maxSize ≤ 0 ∨ fileSize ≤ maxSize) →
      env.mkdirOk = true → env.durSec = some durSec →
      env.bitrateOut = some raw → goTrimSpace raw = [] →
      splitVideoV2 env videoPath maxSize outputDir = .error .bitrateFail) := by
  refine ⟨by decide, ?_, ?_, ?_⟩
  · intro htrim
    unfold GetVideoBitrate
    dsimp only
    rw [htrim]
    rfl
  · intro hfs hbig hmk hdur hbr hdz hez
    exact splitVideoV2_split_eq env videoPath outputDir maxSize fileSize durSec 0
      (Int.tdiv (fileSize * 8) durSec) hfs hbig hmk hdur hbr (fun _ => hdz)
      (by rw [if_neg (lt_irrefl 0)]) hez
  · intro hfs hbig hmk hdur hout htrim
    refine splitVideoV2_bitrateFail env videoPath outputDir maxSize fileSize durSec
      hfs hbig hmk hdur ?_
    rw [hout]
    unfold GetVideoBitrate
    dsimp only
    rw [htrim]
    rfl

/-- Environment for the C7 counterexample: the bitrate probe runs
successfully but prints nothing (the container carries no bitrate
metadata); everything else succeeds. -/
def c7Env : SplitV2Env :=
  { fileSize := some 100, mkdirOk := true, durSec := some 50,
    bitrateOut := some [], genTSOk := fun _ => true,
    tsFiles := ["a.ts".toList], remuxOk := fun _ => true }

/-- **C7 counterexample.** With an empty bitrate-probe output the claim says
segmentation proceeds with the estimated bitrate; the code instead fails the
file: `ParseInt("")` errors, and `splitVideoV2` propagates it. -/
theorem emptyBitrate_fails_segmentation :
    GetVideoBitrate (some []) = none ∧
    splitVideoV2 c7Env "v.mp4".toList 10 "tmp".toList = .error .bitrateFail :=
  ⟨rfl, rfl⟩

/-- Environment for the C7 witness: probe output "0", 100 MB file, 50 s
duration (estimated bitrate 16 Mb/s), one produced segment. -/
def c7bEnv : SplitV2Env :=
  { fileSize := some 100000000, mkdirOk := true, durSec := some 50,
    bitrateOut := some "0".toList, genTSOk := fun _ => true,
    tsFiles := ["part.ts".toList], remuxOk := fun _ => true }

/-- Witness for C7 at concrete inputs: probe output "0" leads to a
successful split via the estimate, while an empty output fails the file. -/
theorem bitrate_zero_estimates_but_empty_fails_witness :
    splitVideoV2 c7bEnv "v.mp4".toList 2000000 "tmp".toList = .ok ["tmp/v_0.mp4".toList] ∧
    splitVideoV2 c7Env "v.mp4".toList 20 "tmp".toList = .error .bitrateFail := by
  constructor
  · exact ((bitrate_zero_estimates_but_empty_fails c7bEnv "v.mp4".toList "tmp".toList []
      2000000 100000000 50).2.2.1 rfl (by decide) rfl rfl (by decide) (by decide)
      (by decide)).trans (by rfl)
  · exact (bitrate_zero_estimates_but_empty_fails c7Env "v.mp4".toList "tmp".toList []
      20 100 50).2.2.2 rfl (by decide) rfl rfl rfl rfl

/-! ## C9: non-emptiness of successful segmentation plans -/

/-- **C9 (amended).** `SplitVideo` (splitter.go) never returns an empty plan
without an error — it returns the original path or a guarded-non-empty chunk
list.  `splitVideoV2` (part_014) returns one output path per `.ts` file
found by the post-split listing, so its successful plan is the original path
or has the listing's length — and is therefore EMPTY, without an error, when
the listing found no files. -/
theorem segmentation_ok_plan_sizes (env1 : SplitV1Env) (env : SplitV2Env)
    (videoPath outputDir : List Char) (maxSize : Int) :
    (∀ l, SplitVideo env1 videoPath maxSize outputDir = .ok l → l ≠ []) ∧
    (∀ l, splitVideoV2 env videoPath maxSize outputDir = .ok l →
      l = [videoPath] ∨ l.length = env.tsFiles.length) := by
  constructor
  · intro l h
    unfold SplitVideo at h
    rcases hfs : env1.fileSize with _ | fs
    · rw [hfs] at h; exact absurd h (by simp)
    · rw [hfs] at h
      dsimp only at h
      by_cases h1 : maxSize ≤ 0 ∨ fs ≤ maxSize
      · rw [if_pos h1, Except.ok.injEq] at h
        subst h; simp
      · rw [if_neg h1] at h
        by_cases h2 : env1.ffmpegInPath = true
        · simp only [h2, not_true, if_false] at h
          by_cases h3 : env1.mkdirOk = true
          · simp only [h3, not_true, if_false] at h
            by_cases h4 : env1.runOk = true
            · simp only [h4, not_true, if_false] at h
              by_cases h5 : collectChunks env1.chunkExists
                  (chunkName outputDir (trimSuffix (goBase videoPath) (goExt videoPath))
                    (goExt videoPath))
                  (Int.tdiv (fs + maxSize - 1) maxSize + 2).toNat 0 = []
              · rw [if_pos h5] at h; exact absurd h (by simp)
              · rw [if_neg h5, Except.ok.injEq] at h
                subst h; exact h5
            · simp only [h4] at h
              exact absurd h (by simp)
          · simp only [h3] at h
            exact absurd h (by simp)
        · simp only [h2] at h
          exact absurd h (by simp)
  · intro l h
    unfold splitVideoV2 at h
    rcases hfs : env.fileSize with _ | fs
    · rw [hfs] at h; exact absurd h (by simp)
    · rw [hfs] at h
      dsimp only at h
      by_cases h1 : maxSize ≤ 0 ∨ fs ≤ maxSize
      · rw [if_pos h1, Except.ok.injEq] at h
        subst h; left; rfl
      · rw [if_neg h1] at h
        by_cases h2 : env.mkdirOk = true
        · simp only [h2, not_true, if_false] at h
          rcases hd : env.durSec with _ | d
          · rw [hd] at h; exact absurd h (by simp)
          · rw [hd] at h
            dsimp only at h
            rcases hb : GetVideoBitrate env.bitrateOut with _ | p
            · rw [hb] at h; exact absurd h (by simp)
            · rw [hb] at h
              dsimp only at h
              rcases hbb : (if p ≤ 0 then goDiv (fs * 8) d else some p) with _ | br
              · rw [hbb] at h; exact absurd h (by simp)
              · rw [hbb] at h
                dsimp only at h
                rcases hst : goDiv (maxSize * 8) br with _ | st
                · rw [hst] at h; exact absurd h (by simp)
                · rw [hst] at h
                  dsimp only at h
                  by_cases hg : env.genTSOk (if st < 1 then 1 else st) = true
                  · simp only [hg, not_true, if_false] at h
                    right
                    exact remuxSegs_ok_length env outputDir _ _ _ 0 l h
                  · simp only [hg] at h
                    exact absurd h (by simp)
        · simp only [h2] at h
          exact absurd h (by simp)

/-- Environment for the C9 counterexample: a 2-byte file over a 1-byte cap,
every external call succeeding, but the post-split listing finds no `.ts`
files (the source discards the glob error and performs no emptiness
check). -/
def c9Env : SplitV2Env :=
  { fileSize := some 2, mkdirOk := true, durSec := some 1,
    bitrateOut := some "16".toList, genTSOk := fun _ => true,
    tsFiles := [], remuxOk := fun _ => true }

/-- **C9 counterexample.** `splitVideoV2` returns WITHOUT an error and with
an empty plan when the external segmenter produced no files: the claimed
invariant fails for this implementation. -/
theorem splitVideoV2_empty_plan_without_error :
    splitVideoV2 c9Env "v.mp4".toList 1 "tmp".toList = .ok [] ∧
    ([] : List (List Char)).length = 0 :=
  ⟨rfl, rfl⟩

/-- Environment for the C9 witness: as `c9Env` but the listing finds one
`.ts` file. -/
def c9bEnv : SplitV2Env :=
  { fileSize := some 2, mkdirOk := true, durSec := some 1,
    bitrateOut := some "16".toList, genTSOk := fun _ => true,
    tsFiles := ["a.ts".toList], remuxOk := fun _ => true }

/-- Environment for the C9 witness, `SplitVideo` side: a no-split run. -/
def c9cEnv : SplitV1Env :=
  { fileSize := some 50, ffmpegInPath := false, mkdirOk := false, runOk := false,
    chunkExists := fun _ => false }

/-- Witness for C9 (amended) at concrete inputs. -/
theorem segmentation_ok_plan_sizes_witness :
    (["v.mp4".toList] : List (List Char)) ≠ [] ∧
    ((["tmp/v_0.mp4".toList] : List (List Char)) = ["v.mp4".toList] ∨
      (["tmp/v_0.mp4".toList] : List (List Char)).length = c9bEnv.tsFiles.length) := by
  constructor
  · exact (segmentation_ok_plan_sizes c9cEnv c9bEnv "v.mp4".toList "tmp".toList 100).1
      ["v.mp4".toList] rfl
  · exact (segmentation_ok_plan_sizes c9cEnv c9bEnv "v.mp4".toList "tmp".toList 1).2
      ["tmp/v_0.mp4".toList] rfl

/-! ## The messaging transport: client.SendMultiMedia -/

/-- `client.MediaItem` (internal/client/media.go). -/
structure MediaItem where
  FilePath : List Char
  MediaType : List Char
  Caption : List Char
  deriving DecidableEq

/-- The `tg.InputSingleMedia` entry appended to the album: the server-side
media reference obtained from `MessagesUploadMedia`, plus the caption
carried in the `Message` field (the random id plays no role in the claims). -/
structure SingleMedia where
  mediaRef : Nat
  message : List Char
  deriving DecidableEq

/-- Network calls made to the messaging transport. -/
inductive TEvent where
  /-- `uploader.FromPath`: raw byte transfer of one file. -/
  | fromPathCall (path : List Char)
  /-- `MessagesUploadMedia`: registration of an uploaded file as media. -/
  | uploadMediaCall (handle : Nat)
  /-- `MessagesSendMultiMedia`: the single album send. -/
  | sendCall (album : List SingleMedia)
  deriving DecidableEq

/-- Environment of one `SendMultiMedia` run: the outcome of each external
call, keyed by its argument. -/
structure TransportEnv where
  /-- `os.Stat` in the initial logging loop. -/
  statOk : List Char → Bool
  /-- `uploader.FromPath`: `none` = transfer error, `some h` = input-file handle. -/
  fromPath : List Char → Option Nat
  /-- `MessagesUploadMedia` keyed by media type and input-file handle:
  `none` = API error (the build helpers panic on it), `some ref` = media
  reference. -/
  uploadMedia : List Char → Nat → Option Nat
  /-- `ffmpeg.GetVideoResolution`, used by the part_008 revision for videos. -/
  resolution : List Char → Option (Int × Int)
  /-- `MessagesSendMultiMedia` outcome for a given album. -/
  sendOk : List SingleMedia → Bool

/-- Errors of the two `SendMultiMedia` revisions (a panic inside a build
helper aborts the run and is modelled as an error too). -/
inductive SendErr where
  | statFail | uploadFail | uploadMediaPanic | resolutionFail | invalidType | sendFail
  deriving DecidableEq

def photoStr : List Char := "photo".toList

def videoStr : List Char := "video".toList

/-- Upload loop of `client.SendMultiMedia` (internal/client/media.go lines
39-53): each item in order is transferred with `FromPath` (failure aborts
the whole call), then the switch on the media type registers it as photo or
video media (`MessagesUploadMedia` inside buildPhotoMedia/buildVideoMedia,
whose error panics) and appends the entry to the album; an item of any other
type is transferred but silently not appended (the switch has no default
case). -/
def uploadLoopClient (env : TransportEnv) : List MediaItem →
    Except SendErr (List SingleMedia) × List TEvent
  | [] => (.ok [], [])
  | item :: rest =>
    match env.fromPath item.FilePath with
    | none => (.error .uploadFail, [.fromPathCall item.FilePath])
    | some h =>
      if item.MediaType = photoStr then
        match env.uploadMedia item.MediaType h with
        | none => (.error .uploadMediaPanic,
            [.fromPathCall item.FilePath, .uploadMediaCall h])
        | some ref =>
          let (res, tr) := uploadLoopClient env rest
          (res.map (fun album => ⟨ref, item.Caption⟩ :: album),
            .fromPathCall item.FilePath :: .uploadMediaCall h :: tr)
      else if item.MediaType = videoStr then
        match env.uploadMedia item.MediaType h with
        | none => (.error .uploadMediaPanic,
            [.fromPathCall item.FilePath, .uploadMediaCall h])
        | some ref =>
          let (res, tr) := uploadLoopClient env rest
          (res.map (fun album => ⟨ref, item.Caption⟩ :: album),
            .fromPathCall item.FilePath :: .uploadMediaCall h :: tr)
      else
        let (res, tr) := uploadLoopClient env rest
        (res, .fromPathCall item.FilePath :: tr)

/-- `client.SendMultiMedia` (internal/client/media.go lines 24-64): the
initial stat/logging loop (its `os.Stat` failure aborts before any transport
call), then the sequential upload loop, then the single
`MessagesSendMultiMedia` call on the accumulated album. -/
def SendMultiMediaClient (env : TransportEnv) (items : List MediaItem) :
    Except SendErr Unit × List TEvent :=
  if ¬ items.all (fun it => env.statOk it.FilePath) then (.error .statFail, [])
  else
    match uploadLoopClient env items with
    | (.error e, tr) => (.error e, tr)
    | (.ok album, tr) =>
      ((if env.sendOk album then .ok () else .error .sendFail),
        tr ++ [.sendCall album])

/-- `Client.uploadMedia` (part_008 lines 54-75): `FromPath`, then the switch
— a photo registers directly; a video first probes the resolution with
ffprobe (failure aborts) and then registers; any other media type is an
error. -/
def uploadMediaV2 (env : TransportEnv) (item : MediaItem) :
    Except SendErr SingleMedia × List TEvent :=
  match env.fromPath item.FilePath with
  | none => (.error .uploadFail, [.fromPathCall item.FilePath])
  | some h =>
    if item.MediaType = photoStr then
      match env.uploadMedia item.MediaType h with
      | none => (.error .uploadMediaPanic,
          [.fromPathCall item.FilePath, .uploadMediaCall h])
      | some ref => (.ok ⟨ref, item.Caption⟩,
          [.fromPathCall item.FilePath, .uploadMediaCall h])
    else if item.MediaType = videoStr then
      match env.resolution item.FilePath with
      | none => (.error .resolutionFail, [.fromPathCall item.FilePath])
      | some _ =>
        match env.uploadMedia item.MediaType h with
        | none => (.error .uploadMediaPanic,
            [.fromPathCall item.FilePath, .uploadMediaCall h])
        | some ref => (.ok ⟨ref, item.Caption⟩,
            [.fromPathCall item.FilePath, .uploadMediaCall h])
    else (.error .invalidType, [.fromPathCall item.FilePath])

/-- Upload loop of the part_008 `SendMultiMedia` (lines 35-42): sequential,
first error aborts. -/
def uploadLoopV2 (env : TransportEnv) : List MediaItem →
    Except SendErr (List SingleMedia) × List TEvent
  | [] => (.ok [], [])
  | item :: rest =>
    match uploadMediaV2 env item with
    | (.error e, tr) => (.error e, tr)
    | (.ok m, tr) =>
      let (res, tr2) := uploadLoopV2 env rest
      (res.map (fun album => m :: album), tr ++ tr2)

/-- `Client.SendMultiMedia` (part_008 lines 23-52). -/
def SendMultiMediaV2 (env : TransportEnv) (items : List MediaItem) :
    Except SendErr Unit × List TEvent :=
  if ¬ items.all (fun it => env.statOk it.FilePath) then (.error .statFail, [])
  else
    match uploadLoopV2 env items with
    | (.error e, tr) => (.error e, tr)
    | (.ok album, tr) =>
      ((if env.sendOk album then .ok () else .error .sendFail),
        tr ++ [.sendCall album])

/-- Successful upload of one item in the media.go revision. -/
def itemOkClient (env : TransportEnv) (item : MediaItem) : Bool :=
  match env.fromPath item.FilePath with
  | none => false
  | some h => (env.uploadMedia item.MediaType h).isSome

/-- Successful upload of one item in the part_008 revision (the video branch
additionally needs the resolution probe). -/
def itemOkV2 (env : TransportEnv) (item : MediaItem) : Bool :=
  match env.fromPath item.FilePath with
  | none => false
  | some h =>
    if item.MediaType = photoStr then (env.uploadMedia item.MediaType h).isSome
    else if item.MediaType = videoStr then
      (env.resolution item.FilePath).isSome && (env.uploadMedia item.MediaType h).isSome
    else false

/-- The transport events of one successfully uploaded item. -/
def itemEvents (env : TransportEnv) (item : MediaItem) : List TEvent :=
  [.fromPathCall item.FilePath, .uploadMediaCall ((env.fromPath item.FilePath).getD 0)]

/-- The album entry produced for one successfully uploaded item. -/
def itemMedia (env : TransportEnv) (item : MediaItem) : SingleMedia :=
  ⟨(env.uploadMedia item.MediaType ((env.fromPath item.FilePath).getD 0)).getD 0,
    item.Caption⟩

theorem uploadLoopClient_all_ok (env : TransportEnv) (items : List MediaItem)
    (hpt : ∀ it ∈ items, it.MediaType = photoStr ∨ it.MediaType = videoStr)
    (hok : ∀ it ∈ items, itemOkClient env it = true) :
    uploadLoopClient env items =
      (.ok (items.map (itemMedia env)), items.flatMap (itemEvents env)) := by
  induction items with
  | nil => rfl
  | cons item rest ih =>
    have hokh := hok item (List.mem_cons_self _ _)
    rcases hf : env.fromPath item.FilePath with _ | h
    · unfold itemOkClient at hokh
      rw [hf] at hokh
      exact absurd hokh (by simp)
    · have hum : (env.uploadMedia item.MediaType h).isSome = true := by
        unfold itemOkClient at hokh
        rw [hf] at hokh
        exact hokh
      rcases hu : env.uploadMedia item.MediaType h with _ | ref
      · rw [hu] at hum; simp at hum
      · have hrest := ih (fun it hm => hpt it (List.mem_cons_of_mem _ hm))
          (fun it hm => hok it (List.mem_cons_of_mem _ hm))
        rcases hpt item (List.mem_cons_self _ _) with hp | hv
        · unfold uploadLoopClient
          rw [hf]
          dsimp only
          rw [if_pos hp, hu]
          dsimp only
          rw [hrest]
          simp [itemMedia, itemEvents, hf, hu, Except.map]
        · have hnp : ¬ item.MediaType = photoStr := by
            rw [hv]; decide
          unfold uploadLoopClient
          rw [hf]
          dsimp only
          rw [if_neg hnp, if_pos hv, hu]
          dsimp only
          rw [hrest]
          simp [itemMedia, itemEvents, hf, hu, Except.map]

theorem uploadLoopClient_ok_inv (env : TransportEnv) (items : List MediaItem)
    (album : List SingleMedia) (tr : List TEvent)
    (h : uploadLoopClient env items = (.ok album, tr)) :
    ∀ it ∈ items, (it.MediaType = photoStr ∨ it.MediaType = videoStr) →
      itemOkClient env it = true := by
  induction items generalizing album tr with
  | nil => intro it hm; exact absurd hm (by simp)
  | cons item rest ih =>
    intro it hm hpt
    unfold uploadLoopClient at h
    rcases hf : env.fromPath item.FilePath with _ | hh
    · rw [hf] at h
      exact absurd (congrArg Prod.fst h) (by simp)
    · rw [hf] at h
      dsimp only at h
      have hcont : ∀ ref, (env.uploadMedia item.MediaType hh = some ref) →
          it = item ∨ it ∈ rest → itemOkClient env it = true := by
        intro ref hu hmem
        rcases hmem with heq | hmem
        · rw [heq]
          unfold itemOkClient
          rw [hf]
          dsimp only
          rw [hu]
          rfl
        · rcases hul : uploadLoopClient env rest with ⟨res, tr2⟩
          have hres : ∃ album', res = .ok album' := by
            by_cases hp : item.MediaType = photoStr
            · rw [if_pos hp, hu] at h
              rw [hul] at h
              dsimp only at h
              rcases res with e | a
              · exact absurd (congrArg Prod.fst h) (by simp [Except.map])
              · exact ⟨a, rfl⟩
            · by_cases hv : item.MediaType = videoStr
              · rw [if_neg hp, if_pos hv, hu] at h
                rw [hul] at h
                dsimp only at h
                rcases res with e | a
                · exact absurd (congrArg Prod.fst h) (by simp [Except.map])
                · exact ⟨a, rfl⟩
              · rw [if_neg hp, if_neg hv] at h
                rw [hul] at h
                dsimp only at h
                rcases res with e | a
                · exact absurd (congrArg Prod.fst h) (by simp)
                · exact ⟨a, rfl⟩
          obtain ⟨album', rfl⟩ := hres
          exact ih album' tr2 hul it hmem hpt
      by_cases hp : item.MediaType = photoStr
      · rw [if_pos hp] at h
        rcases hu : env.uploadMedia item.MediaType hh with _ | ref
        · rw [hu] at h
          exact absurd (congrArg Prod.fst h) (by simp)
        · rw [hu] at h
          exact hcont ref hu (List.mem_cons.mp hm)
      · by_cases hv : item.MediaType = videoStr
        · rw [if_neg hp, if_pos hv] at h
          rcases hu : env.uploadMedia item.MediaType hh with _ | ref
          · rw [hu] at h
            exact absurd (congrArg Prod.fst h) (by simp)
          · rw [hu] at h
            exact hcont ref hu (List.mem_cons.mp hm)
        · rcases List.mem_cons.mp hm with heq | hmem
          · rw [heq] at hpt
            exact absurd hpt (by simp [hp, hv])
          · rw [if_neg hp, if_neg hv] at h
            rcases hul : uploadLoopClient env rest with ⟨res, tr2⟩
            rw [hul] at h
            dsimp only at h
            rcases res with e | a
            · exact absurd (congrArg Prod.fst h) (by simp)
            · exact ih a tr2 hul it hmem hpt

theorem uploadLoopClient_no_send (env : TransportEnv) (items : List MediaItem)
    (album : List SingleMedia) :
    TEvent.sendCall album ∉ (uploadLoopClient env items).2 := by
  induction items with
  | nil => simp [uploadLoopClient]
  | cons item rest ih =>
    unfold uploadLoopClient
    rcases hf : env.fromPath item.FilePath with _ | h
    · simp
    · dsimp only
      by_cases hp : item.MediaType = photoStr
      · rw [if_pos hp]
        rcases hu : env.uploadMedia item.MediaType h with _ | ref
        · simp
        · dsimp only
          simp only [List.mem_cons]
          push_neg
          exact ⟨by simp, by simp, ih⟩
      · rw [if_neg hp]
        by_cases hv : item.MediaType = videoStr
        · rw [if_pos hv]
          rcases hu : env.uploadMedia item.MediaType h with _ | ref
          · simp
          · dsimp only
            simp only [List.mem_cons]
            push_neg
            exact ⟨by simp, by simp, ih⟩
        · rw [if_neg hv]
          dsimp only
          simp only [List.mem_cons]
          push_neg
          exact ⟨by simp, ih⟩

theorem uploadMediaV2_ok (env : TransportEnv) (item : MediaItem)
    (hok : itemOkV2 env item = true) :
    uploadMediaV2 env item = (.ok (itemMedia env item), itemEvents env item) := by
  unfold itemOkV2 at hok
  rcases hf : env.fromPath item.FilePath with _ | h
  · rw [hf] at hok
    exact absurd hok (by simp)
  · rw [hf] at hok
    dsimp only at hok
    by_cases hp : item.MediaType = photoStr
    · rw [if_pos hp] at hok
      rcases hu : env.uploadMedia item.MediaType h with _ | ref
      · rw [hu] at hok; simp at hok
      · unfold uploadMediaV2
        rw [hf]
        dsimp only
        rw [if_pos hp, hu]
        simp [itemMedia, itemEvents, hf, hu]
    · rw [if_neg hp] at hok
      by_cases hv : item.MediaType = videoStr
      · rw [if_pos hv] at hok
        rcases hr : env.resolution item.FilePath with _ | wh
        · rw [hr] at hok; simp at hok
        · rcases hu : env.uploadMedia item.MediaType h with _ | ref
          · rw [hr, hu] at hok; simp at hok
          · unfold uploadMediaV2
            rw [hf]
            dsimp only
            rw [if_neg hp, if_pos hv, hr]
            dsimp only
            rw [hu]
            simp [itemMedia, itemEvents, hf, hu]
      · rw [if_neg hv] at hok
        exact absurd hok (by simp)

theorem uploadMediaV2_ok_inv (env : TransportEnv) (item : MediaItem)
    (m : SingleMedia) (tr : List TEvent)
    (h : uploadMediaV2 env item = (.ok m, tr)) :
    itemOkV2 env item = true := by
  unfold uploadMediaV2 at h
  rcases hf : env.fromPath item.FilePath with _ | hh
  · rw [hf] at h
    exact absurd (congrArg Prod.fst h) (by simp)
  · rw [hf] at h
    dsimp only at h
    unfold itemOkV2
    rw [hf]
    dsimp only
    by_cases hp : item.MediaType = photoStr
    · rw [if_pos hp] at h ⊢
      rcases hu : env.uploadMedia item.MediaType hh with _ | ref
      · rw [hu] at h
        exact absurd (congrArg Prod.fst h) (by simp)
      · rfl
    · rw [if_neg hp] at h ⊢
      by_cases hv : item.MediaType = videoStr
      · rw [if_pos hv] at h ⊢
        rcases hr : env.resolution item.FilePath with _ | wh
        · rw [hr] at h
          exact absurd (congrArg Prod.fst h) (by simp)
        · rw [hr] at h
          dsimp only at h
          rcases hu : env.uploadMedia item.MediaType hh with _ | ref
          · rw [hu] at h
            exact absurd (congrArg Prod.fst h) (by simp)
          · rfl
      · rw [if_neg hv] at h
        exact absurd (congrArg Prod.fst h) (by simp)

theorem uploadMediaV2_no_send (env : TransportEnv) (item : MediaItem)
    (album : List SingleMedia) :
    TEvent.sendCall album ∉ (uploadMediaV2 env item).2 := by
  unfold uploadMediaV2
  rcases hf : env.fromPath item.FilePath with _ | h
  · simp
  · dsimp only
    by_cases hp : item.MediaType = photoStr
    · rw [if_pos hp]
      rcases hu : env.uploadMedia item.MediaType h with _ | ref
      · simp
      · simp
    · rw [if_neg hp]
      by_cases hv : item.MediaType = videoStr
      · rw [if_pos hv]
        rcases hr : env.resolution item.FilePath with _ | wh
        · simp
        · dsimp only
          rcases hu : env.uploadMedia item.MediaType h with _ | ref
          · simp
          · simp
      · rw [if_neg hv]
        simp

theorem uploadLoopV2_all_ok (env : TransportEnv) (items : List MediaItem)
    (hok : ∀ it ∈ items, itemOkV2 env it = true) :
    uploadLoopV2 env items =
      (.ok (items.map (itemMedia env)), items.flatMap (itemEvents env)) := by
  induction items with
  | nil => rfl
  | cons item rest ih =>
    unfold uploadLoopV2
    rw [uploadMediaV2_ok env item (hok item (List.mem_cons_self _ _))]
    dsimp only
    rw [ih (fun it hm => hok it (List.mem_cons_of_mem _ hm))]
    simp [Except.map]

theorem uploadLoopV2_ok_inv (env : TransportEnv) (items : List MediaItem)
    (album : List SingleMedia) (tr : List TEvent)
    (h : uploadLoopV2 env items = (.ok album, tr)) :
    ∀ it ∈ items, itemOkV2 env it = true := by
  induction items generalizing album tr with
  | nil => intro it hm; exact absurd hm (by simp)
  | cons item rest ih =>
    intro it hm
    unfold uploadLoopV2 at h
    rcases hum : uploadMediaV2 env item with ⟨r, tr1⟩
    rw [hum] at h
    rcases r with e | m
    · exact absurd (congrArg Prod.fst h) (by simp)
    · dsimp only at h
      rcases hul : uploadLoopV2 env rest with ⟨res, tr2⟩
      rw [hul] at h
      dsimp only at h
      rcases res with e | a
      · exact absurd (congrArg Prod.fst h) (by simp [Except.map])
      · rcases List.mem_cons.mp hm with heq | hmem
        · rw [heq]
          exact uploadMediaV2_ok_inv env item m tr1 hum
        · exact ih a tr2 hul it hmem

theorem uploadLoopV2_no_send (env : TransportEnv) (items : List MediaItem)
    (album : List SingleMedia) :
    TEvent.sendCall album ∉ (uploadLoopV2 env items).2 := by
  induction items with
  | nil => simp [uploadLoopV2]
  | cons item rest ih =>
    unfold uploadLoopV2
    rcases hum : uploadMediaV2 env item with ⟨r, tr1⟩
    have h1 : TEvent.sendCall album ∉ tr1 := by
      have := uploadMediaV2_no_send env item album
      rw [hum] at this
      exact this
    rcases r with e | m
    · exact h1
    · dsimp only
      rw [List.mem_append]
      push_neg
      exact ⟨h1, ih⟩

/-- **C5.** In both `SendMultiMedia` revisions: the single
`MessagesSendMultiMedia` call is issued only after every item of the request
has been transferred and registered (the run's trace is exactly the item
upload events, in request order, followed by the one send call), the album
entries of the send request are the items' handles in the original item
order, and if any single item's upload fails the operation returns an error
and the send call is never issued. -/
theorem sendMultiMedia_atomic_and_ordered (env : TransportEnv) (items : List MediaItem)
    (hpt : ∀ it ∈ items, it.MediaType = photoStr ∨ it.MediaType = videoStr) :
    ((∀ it ∈ items, env.statOk it.FilePath = true) →
      (∀ it ∈ items, itemOkClient env it = true) →
      SendMultiMediaClient env items =
        ((if env.sendOk (items.map (itemMedia env)) then .ok () else .error .sendFail),
          items.flatMap (itemEvents env) ++ [.sendCall (items.map (itemMedia env))])) ∧
    ((∃ it ∈ items, itemOkClient env it = false) →
      (∃ e, (SendMultiMediaClient env items).1 = .error e) ∧
      ∀ album, TEvent.sendCall album ∉ (SendMultiMediaClient env items).2) ∧
    ((∀ it ∈ items, env.statOk it.FilePath = true) →
      (∀ it ∈ items, itemOkV2 env it = true) →
      SendMultiMediaV2 env items =
        ((if env.sendOk (items.map (itemMedia env)) then .ok () else .error .sendFail),
          items.flatMap (itemEvents env) ++ [.sendCall (items.map (itemMedia env))])) ∧
    ((∃ it ∈ items, itemOkV2 env it = false) →
      (∃ e, (SendMultiMediaV2 env items).1 = .error e) ∧
      ∀ album, TEvent.sendCall album ∉ (SendMultiMediaV2 env items).2) := by
  refine ⟨?_, ?_, ?_, ?_⟩
  · intro hstat hok
    unfold SendMultiMediaClient
    have hall : items.all (fun it => env.statOk it.FilePath) = true := by
      rw [List.all_eq_true]; exact hstat
    rw [if_neg (by simp [hall])]
    rw [uploadLoopClient_all_ok env items hpt hok]
  · intro hbad
    have key : ∃ e tr, SendMultiMediaClient env items = (.error e, tr) ∧
        ∀ album, TEvent.sendCall album ∉ tr := by
      unfold SendMultiMediaClient
      by_cases hstat : items.all (fun it => env.statOk it.FilePath) = true
      · rw [if_neg (by simp [hstat])]
        rcases hul : uploadLoopClient env items with ⟨res, tr⟩
        have hns : ∀ album, TEvent.sendCall album ∉ tr := by
          intro album
          have := uploadLoopClient_no_send env items album
          rw [hul] at this
          exact this
        rcases res with e | album
        · exact ⟨e, tr, rfl, hns⟩
        · exfalso
          obtain ⟨it, hm, hfalse⟩ := hbad
          have := uploadLoopClient_ok_inv env items album tr hul it hm (hpt it hm)
          rw [this] at hfalse
          simp at hfalse
      · rw [if_pos (by simp [hstat])]
        exact ⟨.statFail, [], rfl, by simp⟩
    obtain ⟨e, tr, heq, hns⟩ := key
    rw [heq]
    exact ⟨⟨e, rfl⟩, hns⟩
  · intro hstat hok
    unfold SendMultiMediaV2
    have hall : items.all (fun it => env.statOk it.FilePath) = true := by
      rw [List.all_eq_true]; exact hstat
    rw [if_neg (by simp [hall])]
    rw [uploadLoopV2_all_ok env items hok]
  · intro hbad
    have key : ∃ e tr, SendMultiMediaV2 env items = (.error e, tr) ∧
        ∀ album, TEvent.sendCall album ∉ tr := by
      unfold SendMultiMediaV2
      by_cases hstat : items.all (fun it => env.statOk it.FilePath) = true
      · rw [if_neg (by simp [hstat])]
        rcases hul : uploadLoopV2 env items with ⟨res, tr⟩
        have hns : ∀ album, TEvent.sendCall album ∉ tr := by
          intro album
          have := uploadLoopV2_no_send env items album
          rw [hul] at this
          exact this
        rcases res with e | album
        · exact ⟨e, tr, rfl, hns⟩
        · exfalso
          obtain ⟨it, hm, hfalse⟩ := hbad
          have := uploadLoopV2_ok_inv env items album tr hul it hm
          rw [this] at hfalse
          simp at hfalse
      · rw [if_pos (by simp [hstat])]
        exact ⟨.statFail, [], rfl, by simp⟩
    obtain ⟨e, tr, heq, hns⟩ := key
    rw [heq]
    exact ⟨⟨e, rfl⟩, hns⟩

/-- Fully-successful transport environment for the C5 witness. -/
def c5Env : TransportEnv :=
  { statOk := fun _ => true, fromPath := fun _ => some 1,
    uploadMedia := fun _ _ => some 2, resolution := fun _ => some (640, 480),
    sendOk := fun _ => true }

/-- Transport environment whose byte transfers all fail. -/
def c5BadEnv : TransportEnv :=
  { statOk := fun _ => true, fromPath := fun _ => none,
    uploadMedia := fun _ _ => some 2, resolution := fun _ => some (640, 480),
    sendOk := fun _ => true }

/-- A two-item album request: preview photo with the caption, one video
segment with an empty caption. -/
def c5Items : List MediaItem :=
  [{ FilePath := "p.jpg".toList, MediaType := photoStr, Caption := "#t d".toList },
   { FilePath := "v.mp4".toList, MediaType := videoStr, Caption := [] }]

/-- Witness for C5 at a concrete two-item request: with all transfers
succeeding, both revisions upload both items and then send the ordered
album; with failing transfers, both return an error. -/
theorem sendMultiMedia_atomic_and_ordered_witness :
    SendMultiMediaClient c5Env c5Items =
      (.ok (), [.fromPathCall "p.jpg".toList, .uploadMediaCall 1,
        .fromPathCall "v.mp4".toList, .uploadMediaCall 1,
        .sendCall [⟨2, "#t d".toList⟩, ⟨2, []⟩]]) ∧
    (∃ e, (SendMultiMediaClient c5BadEnv c5Items).1 = .error e) ∧
    SendMultiMediaV2 c5Env c5Items =
      (.ok (), [.fromPathCall "p.jpg".toList, .uploadMediaCall 1,
        .fromPathCall "v.mp4".toList, .uploadMediaCall 1,
        .sendCall [⟨2, "#t d".toList⟩, ⟨2, []⟩]]) ∧
    (∃ e, (SendMultiMediaV2 c5BadEnv c5Items).1 = .error e) := by
  refine ⟨?_, ?_, ?_, ?_⟩
  · exact ((sendMultiMedia_atomic_and_ordered c5Env c5Items (by decide)).1
      (by decide) (by decide)).trans (by rfl)
  · exact (((sendMultiMedia_atomic_and_ordered c5BadEnv c5Items (by decide)).2.1)
      (by decide)).1
  · exact ((sendMultiMedia_atomic_and_ordered c5Env c5Items (by decide)).2.2.1
      (by decide) (by decide)).trans (by rfl)
  · exact (((sendMultiMedia_atomic_and_ordered c5BadEnv c5Items (by decide)).2.2.2)
      (by decide)).1

/-! ## ProcessVideo (part_014) and the album construction -/

/-- `client.MediaItem` of the revision used by part_014's `ProcessVideo`:
it additionally carries the video dimensions. -/
structure MediaItemW where
  FilePath : List Char
  MediaType : List Char
  Caption : List Char
  W : Int
  H : Int
  deriving DecidableEq

/-- Part-item loop of `ProcessVideo` (part_014 lines 194-206): each segment
is probed for its resolution (a failure aborts the call) and becomes a
video item with an empty caption and the probed dimensions. -/
def buildPartItems (resolution : List Char → Option (Int × Int)) :
    List (List Char) → Option (List MediaItemW)
  | [] => some []
  | p :: rest =>
    match resolution p with
    | none => none
    | some (w, h) =>
      (buildPartItems resolution rest).map
        (fun items => ⟨p, videoStr, [], w, h⟩ :: items)

/-- Album construction of `ProcessVideo` (part_014 lines 181-206): the
preview photo item carrying the caption (its width and height stay at Go's
zero value), followed by the segment items in plan order. -/
def buildAlbumItems (resolution : List Char → Option (Int × Int))
    (previewPath caption : List Char) (videoParts : List (List Char)) :
    Option (List MediaItemW) :=
  (buildPartItems resolution videoParts).map
    (fun items => ⟨previewPath, photoStr, caption, 0, 0⟩ :: items)

/-- Album construction of the uploader.go `ProcessVideo` revision
(internal/video/uploader.go lines 66-85): same structure, no resolution
probing and no dimensions. -/
def buildAlbumItemsV1 (previewPath caption : List Char)
    (videoParts : List (List Char)) : List MediaItem :=
  ⟨previewPath, photoStr, caption⟩ ::
    videoParts.map (fun p => ⟨p, videoStr, []⟩)

/-- Environment of one part_014 `ProcessVideo` run. -/
structure PV2Env where
  /-- `os.Stat` of the video file. -/
  statOk : Bool
  /-- `ffmpeg.GetVideoDuration`. -/
  durOk : Bool
  /-- `ffmpeg.ExtractFrames` result. -/
  frames : Option (List (List Char))
  /-- `ComposeGrid` outcome. -/
  gridOk : Bool
  /-- Environment of the inner `splitVideoV2` run. -/
  sp : SplitV2Env
  /-- `ffmpeg.GetVideoResolution` per segment path. -/
  resolution : List Char → Option (Int × Int)
  /-- `client.SendMultiMedia` outcome. -/
  sendOk : Bool

inductive PVErr where
  | statFail | durFail | framesFail | gridFail | splitFail (e : SplitErr)
  | albumTooLarge | resolutionFail | sendFail
  deriving DecidableEq

/-- `ProcessVideo` (part_014 lines 126-217), returning the outcome and the
trace of `client.SendMultiMedia` invocations — the function's only
interaction with the messaging transport; every item upload and the album
send happen inside that call, so an empty trace means no transport I/O at
all. -/
def ProcessVideoV2 (env : PV2Env) (filePath tag description : List Char)
    (maxSize : Int) (tempDir : List Char) :
    Except PVErr Unit × List (List MediaItemW) :=
  if ¬ env.statOk then (.error .statFail, [])
  else if ¬ env.durOk then (.error .durFail, [])
  else
    match env.frames with
    | none => (.error .framesFail, [])
    | some _frames =>
      let previewPath := joinPath tempDir (tag ++ '_' :: description ++ "_preview.jpg".toList)
      if ¬ env.gridOk then (.error .gridFail, [])
      else
        match splitVideoV2 env.sp filePath maxSize tempDir with
        | .error e => (.error (.splitFail e), [])
        | .ok videoParts =>
          if 1 + videoParts.length > 10 then (.error .albumTooLarge, [])
          else
            let baseCaption := '#' :: (tag ++ ' ' :: replaceUnderscore description)
            match buildAlbumItems env.resolution previewPath baseCaption videoParts with
            | none => (.error .resolutionFail, [])
            | some mediaItems =>
              ((if env.sendOk then .ok () else .error .sendFail), [mediaItems])

/-- **C3.** With the preliminary stages succeeded and a segmentation plan of
`n` segments in hand: whenever `1 + n > 10`, part_014's `ProcessVideo`
fails with the album-too-large error and its transport trace is empty — no
item upload and no send call is made; whenever `1 + n ≤ 10` the check
passes, the result is never the album-too-large error, and the built album
is handed to the transport.  The sibling revision's standalone
`ValidateChunkCount` accepts exactly the same bound. -/
theorem processVideo_album_cap (env : PV2Env)
    (filePath tag description tempDir : List Char)
    (maxSize : Int) (parts : List (List Char))
    (hstat : env.statOk = true) (hdur : env.durOk = true)
    (hfr : ∃ fr, env.frames = some fr) (hgrid : env.gridOk = true)
    (hsplit : splitVideoV2 env.sp filePath maxSize tempDir = .ok parts) :
    (1 + parts.length > 10 →
      ProcessVideoV2 env filePath tag description maxSize tempDir =
        (.error .albumTooLarge, [])) ∧
    (1 + parts.length ≤ 10 →
      (ProcessVideoV2 env filePath tag description maxSize tempDir).1 ≠
        .error .albumTooLarge ∧
      ∀ mediaItems,
        buildAlbumItems env.resolution
            (joinPath tempDir (tag ++ '_' :: description ++ "_preview.jpg".toList))
            ('#' :: (tag ++ ' ' :: replaceUnderscore description)) parts =
          some mediaItems →
          (ProcessVideoV2 env filePath tag description maxSize tempDir).2 =
            [mediaItems]) ∧
    (∀ k : Int, ValidateChunkCount k = some () ↔ 1 + k ≤ 10) := by
  obtain ⟨fr, hfrs⟩ := hfr
  have hpre : ProcessVideoV2 env filePath tag description maxSize tempDir =
      (if 1 + parts.length > 10 then (.error .albumTooLarge, [])
       else
         match buildAlbumItems env.resolution
             (joinPath tempDir (tag ++ '_' :: description ++ "_preview.jpg".toList))
             ('#' :: (tag ++ ' ' :: replaceUnderscore description)) parts with
         | none => (.error .resolutionFail, [])
         | some mediaItems =>
           ((if env.sendOk then .ok () else .error .sendFail), [mediaItems])) := by
    unfold ProcessVideoV2
    simp only [hstat, hdur, hgrid, not_true, if_false]
    rw [hfrs]
    dsimp only
    rw [hsplit]
  refine ⟨?_, ?_, ?_⟩
  · intro hbig
    rw [hpre, if_pos hbig]
  · intro hle
    rw [hpre, if_neg (not_lt.mpr hle)]
    constructor
    · rcases hb : buildAlbumItems env.resolution
          (joinPath tempDir (tag ++ '_' :: description ++ "_preview.jpg".toList))
          ('#' :: (tag ++ ' ' :: replaceUnderscore description)) parts with _ | mediaItems
      · simp
      · dsimp only
        by_cases hsend : env.sendOk = true
        · simp [hsend]
        · simp [hsend]
    · intro mediaItems hb
      rw [hb]
  · intro k
    unfold ValidateChunkCount
    by_cases hk : 1 + k > 10
    · rw [if_pos hk]
      constructor
      · intro hfalse; exact absurd hfalse (by simp)
      · intro hle; omega
    · rw [if_neg hk]
      constructor
      · intro _; omega
      · intro _; rfl

/-- Splitter environment producing ten segment files. -/
def c3Sp10 : SplitV2Env :=
  { fileSize := some 2, mkdirOk := true, durSec := some 1,
    bitrateOut := some "16".toList, genTSOk := fun _ => true,
    tsFiles := List.replicate 10 "t.ts".toList, remuxOk := fun _ => true }

/-- Splitter environment producing one segment file. -/
def c3Sp1 : SplitV2Env :=
  { fileSize := some 2, mkdirOk := true, durSec := some 1,
    bitrateOut := some "16".toList, genTSOk := fun _ => true,
    tsFiles := ["t.ts".toList], remuxOk := fun _ => true }

/-- The ten segment paths produced under `c3Sp10`. -/
def c3Parts : List (List Char) :=
  ["tmp/v_0.mp4".toList, "tmp/v_1.mp4".toList, "tmp/v_2.mp4".toList,
   "tmp/v_3.mp4".toList, "tmp/v_4.mp4".toList, "tmp/v_5.mp4".toList,
   "tmp/v_6.mp4".toList, "tmp/v_7.mp4".toList, "tmp/v_8.mp4".toList,
   "tmp/v_9.mp4".toList]

/-- `ProcessVideo` environment whose plan has ten segments (11 album items). -/
def c3Env : PV2Env :=
  { statOk := true, durOk := true, frames := some [], gridOk := true,
    sp := c3Sp10, resolution := fun _ => some (640, 480), sendOk := true }

/-- `ProcessVideo` environment whose plan has one segment (2 album items). -/
def c3SmallEnv : PV2Env :=
  { statOk := true, durOk := true, frames := some [], gridOk := true,
    sp := c3Sp1, resolution := fun _ => some (640, 480), sendOk := true }

/-- Witness for C3 at concrete inputs: ten segments (11 items) abort with
the album-too-large error and an empty transport trace; one segment
(2 items) passes the check; `ValidateChunkCount` accepts 9 parts. -/
theorem processVideo_album_cap_witness :
    ProcessVideoV2 c3Env "v.mp4".toList "tag".toList "desc".toList 1 "tmp".toList =
      (.error .albumTooLarge, []) ∧
    (ProcessVideoV2 c3SmallEnv "v.mp4".toList "tag".toList "desc".toList 1
        "tmp".toList).1 ≠ .error .albumTooLarge ∧
    ValidateChunkCount 9 = some () := by
  refine ⟨?_, ?_, ?_⟩
  · exact (processVideo_album_cap c3Env "v.mp4".toList "tag".toList "desc".toList
      "tmp".toList 1 c3Parts rfl rfl ⟨[], rfl⟩ rfl (by rfl)).1 (by decide)
  · exact ((processVideo_album_cap c3SmallEnv "v.mp4".toList "tag".toList "desc".toList
      "tmp".toList 1 ["tmp/v_0.mp4".toList] rfl rfl ⟨[], rfl⟩ rfl (by rfl)).2.1
      (by decide)).1
  · exact ((processVideo_album_cap c3SmallEnv "v.mp4".toList "tag".toList "desc".toList
      "tmp".toList 1 ["tmp/v_0.mp4".toList] rfl rfl ⟨[], rfl⟩ rfl (by rfl)).2.2 9).mpr
      (by decide)

/-! ## C4: album layout -/

theorem buildPartItems_ok (resolution : List Char → Option (Int × Int))
    (parts : List (List Char)) (items : List MediaItemW)
    (h : buildPartItems resolution parts = some items) :
    items.map MediaItemW.FilePath = parts ∧
    ∀ it ∈ items, it.MediaType = videoStr ∧ it.Caption = [] := by
  induction parts generalizing items with
  | nil =>
    unfold buildPartItems at h
    rw [Option.some_inj] at h
    subst h
    simp
  | cons p rest ih =>
    unfold buildPartItems at h
    rcases hr : resolution p with _ | ⟨w, ht⟩
    · rw [hr] at h
      exact absurd h (by simp)
    · rw [hr] at h
      dsimp only at h
      rcases hb : buildPartItems resolution rest with _ | items'
      · rw [hb] at h
        exact absurd h (by simp)
      · rw [hb] at h
        simp only [Option.map_some', Option.some_inj] at h
        subst h
        obtain ⟨h1, h2⟩ := ih items' hb
        refine ⟨by simp [h1], ?_⟩
        intro it hm
        rcases List.mem_cons.mp hm with heq | hmem
        · rw [heq]
          exact ⟨rfl, rfl⟩
        · exact h2 it hmem

/-- **C4.** Every album built by the part_014 `ProcessVideo` from a tag, a
description, a preview path and an ordered segment list has the preview as
item 0 — kind photo, caption `"#" ++ tag ++ " " ++ description` with
underscores replaced by spaces — and items 1..n are exactly the segment
paths in plan order, each of kind video with an empty caption; the older
uploader.go revision builds the same layout. -/
theorem album_layout (resolution : List Char → Option (Int × Int))
    (previewPath tag description : List Char) (videoParts : List (List Char)) :
    (∀ l, buildAlbumItems resolution previewPath
        ('#' :: (tag ++ ' ' :: replaceUnderscore description)) videoParts = some l →
      l.head? = some ⟨previewPath, photoStr,
        '#' :: (tag ++ ' ' :: description.map (fun c => if c = '_' then ' ' else c)),
        0, 0⟩ ∧
      l.tail.map MediaItemW.FilePath = videoParts ∧
      ∀ it ∈ l.tail, it.MediaType = videoStr ∧ it.Caption = []) ∧
    ((buildAlbumItemsV1 previewPath (BuildCaption tag description) videoParts).head? =
      some ⟨previewPath, photoStr,
        '#' :: (tag ++ ' ' :: description.map (fun c => if c = '_' then ' ' else c))⟩ ∧
      (buildAlbumItemsV1 previewPath (BuildCaption tag description) videoParts).tail.map
        MediaItem.FilePath = videoParts ∧
      ∀ it ∈ (buildAlbumItemsV1 previewPath (BuildCaption tag description)
          videoParts).tail,
        it.MediaType = videoStr ∧ it.Caption = []) := by
  constructor
  · intro l h
    unfold buildAlbumItems at h
    rcases hb : buildPartItems resolution videoParts with _ | items
    · rw [hb] at h
      exact absurd h (by simp)
    · rw [hb] at h
      simp only [Option.map_some', Option.some_inj] at h
      subst h
      obtain ⟨h1, h2⟩ := buildPartItems_ok resolution videoParts items hb
      exact ⟨by simp [replaceUnderscore_eq_map], by simp [h1], fun it hm => h2 it hm⟩
  · refine ⟨?_, ?_, ?_⟩
    · simp [buildAlbumItemsV1, BuildCaption, replaceUnderscore_eq_map]
    · unfold buildAlbumItemsV1
      simp only [List.tail_cons, List.map_map]
      have hcomp : (MediaItem.FilePath ∘ fun p : List Char =>
          ({ FilePath := p, MediaType := videoStr, Caption := [] } : MediaItem)) = id := rfl
      rw [hcomp, List.map_id]
    · intro it hm
      unfold buildAlbumItemsV1 at hm
      simp only [List.tail_cons, List.mem_map] at hm
      obtain ⟨p, -, heq⟩ := hm
      rw [← heq]
      exact ⟨rfl, rfl⟩

/-- Resolution probe for the C4 witness. -/
def c4Res : List Char → Option (Int × Int) := fun _ => some (640, 480)

/-- The album built in the C4 witness. -/
def c4Album : List MediaItemW :=
  [⟨"p.jpg".toList, photoStr, "#tag de sc".toList, 0, 0⟩,
   ⟨"a.mp4".toList, videoStr, [], 640, 480⟩,
   ⟨"b.mp4".toList, videoStr, [], 640, 480⟩]

/-- Witness for C4 at a concrete album: preview first with the caption,
then the two segments in order with empty captions. -/
theorem album_layout_witness :
    c4Album.head? = some ⟨"p.jpg".toList, photoStr, "#tag de sc".toList, 0, 0⟩ ∧
    c4Album.tail.map MediaItemW.FilePath = ["a.mp4".toList, "b.mp4".toList] ∧
    ∀ it ∈ c4Album.tail, it.MediaType = videoStr ∧ it.Caption = [] := by
  exact (album_layout c4Res "p.jpg".toList "tag".toList "de_sc".toList
    ["a.mp4".toList, "b.mp4".toList]).1 c4Album (by rfl)

/-! ## C8: grid composition -/

/-- Environment of one `ComposeGrid` run. -/
structure GridEnv where
  /-- `loadImage`: decoded image bounds (Dx, Dy); `none` = open/decode error. -/
  loadImage : List Char → Option (Int × Int)
  /-- `os.Create` of the output file. -/
  createOk : Bool
  /-- `jpeg.Encode` outcome. -/
  encodeOk : Bool

inductive GridErr where
  | noFrames | badDims | mismatch | loadFail | panicDiv | createFail | encodeFail
  deriving DecidableEq

/-- Observable effects of `ComposeGrid`: scaling a frame onto the canvas,
and creating/encoding the output file. -/
inductive GEvent where
  | draw (framePath : List Char)
  | writeOut
  deriving DecidableEq

/-- Frame-drawing loop of `ComposeGrid` (thumbnail.go lines 124-141): each
frame is loaded (failure aborts the call) and scaled onto its grid cell. -/
def drawLoop (env : GridEnv) : List (List Char) → Except GridErr Unit × List GEvent
  | [] => (.ok (), [])
  | f :: rest =>
    match env.loadImage f with
    | none => (.error .loadFail, [])
    | some _ =>
      let (res, tr) := drawLoop env rest
      (res, .draw f :: tr)

/-- `ComposeGrid` (internal/video/thumbnail.go lines 82-156; part_014 lines
15-91 is the same function plus logging): the three validations, the
first-frame load fixing the cell size (Go integer divisions; a zero image
dimension would panic, modelled as `panicDiv`), the drawing loop, and the
creation and JPEG encoding of the output file. -/
def ComposeGrid (env : GridEnv) (framePaths : List (List Char)) (cols rows : Int) :
    Except GridErr Unit × List GEvent :=
  match framePaths with
  | [] => (.error .noFrames, [])
  | f0 :: _ =>
    if cols ≤ 0 ∨ rows ≤ 0 then (.error .badDims, [])
    else if (framePaths.length : Int) ≠ cols * rows then (.error .mismatch, [])
    else
      match env.loadImage f0 with
      | none => (.error .loadFail, [])
      | some (w0, h0) =>
        match goDiv (320 * h0) w0 with
        | none => (.error .panicDiv, [])
        | some th0 =>
          match (if th0 < 180 then (goDiv (180 * w0) h0).map (fun tw => (tw, (180 : Int)))
                 else some ((320 : Int), th0)) with
          | none => (.error .panicDiv, [])
          | some _cell =>
            match drawLoop env framePaths with
            | (.error e, tr) => (.error e, tr)
            | (.ok _, tr) =>
              if ¬ env.createOk then (.error .createFail, tr)
              else if ¬ env.encodeOk then (.error .encodeFail, tr ++ [.writeOut])
              else (.ok (), tr ++ [.writeOut])

theorem drawLoop_result (env : GridEnv) (frames : List (List Char)) :
    (drawLoop env frames).1 = .ok () ∨ (drawLoop env frames).1 = .error .loadFail := by
  induction frames with
  | nil => left; rfl
  | cons f rest ih =>
    unfold drawLoop
    rcases hl : env.loadImage f with _ | wh
    · right; rfl
    · dsimp only
      exact ih

/-- **C8.** For positive grid dimensions, `ComposeGrid` returns an error
with an empty effect trace — no frame drawn, no output file created —
whenever the frame count differs from `cols*rows`; when the count matches,
all three validations pass and composition proceeds (any remaining failure
is an image-loading, division-panic or output error, never a validation
error). -/
theorem composeGrid_frame_count (env : GridEnv) (framePaths : List (List Char))
    (cols rows : Int) (hc : 0 < cols) (hr : 0 < rows) :
    ((framePaths.length : Int) ≠ cols * rows →
      (∃ e, (ComposeGrid env framePaths cols rows).1 = .error e) ∧
      (ComposeGrid env framePaths cols rows).2 = []) ∧
    ((framePaths.length : Int) = cols * rows →
      (ComposeGrid env framePaths cols rows).1 ≠ .error .noFrames ∧
      (ComposeGrid env framePaths cols rows).1 ≠ .error .badDims ∧
      (ComposeGrid env framePaths cols rows).1 ≠ .error .mismatch) := by
  have hbd : ¬ (cols ≤ 0 ∨ rows ≤ 0) := by
    push_neg
    exact ⟨hc, hr⟩
  constructor
  · intro hne
    rcases framePaths with _ | ⟨f0, rest⟩
    · exact ⟨⟨.noFrames, rfl⟩, rfl⟩
    · unfold ComposeGrid
      dsimp only
      rw [if_neg hbd, if_pos hne]
      exact ⟨⟨.mismatch, rfl⟩, rfl⟩
  · intro heq
    rcases hfp : framePaths with _ | ⟨f0, rest⟩
    · exfalso
      rw [hfp] at heq
      simp only [List.length_nil, Nat.cast_zero] at heq
      have : (0 : Int) < cols * rows := mul_pos hc hr
      omega
    · rw [hfp] at heq
      unfold ComposeGrid
      dsimp only
      rw [if_neg hbd, if_neg (by rw [heq]; simp)]
      rcases hl : env.loadImage f0 with _ | ⟨w0, h0⟩
      · exact ⟨by simp, by simp, by simp⟩
      · dsimp only
        rcases hd1 : goDiv (320 * h0) w0 with _ | th0
        · exact ⟨by simp, by simp, by simp⟩
        · dsimp only
          rcases hd2 : (if th0 < 180 then (goDiv (180 * w0) h0).map (fun tw => (tw, (180 : Int)))
              else some ((320 : Int), th0)) with _ | cell
          · exact ⟨by simp, by simp, by simp⟩
          · dsimp only
            rcases hdl : drawLoop env (f0 :: rest) with ⟨res, tr⟩
            have hres := drawLoop_result env (f0 :: rest)
            rw [hdl] at hres
            rcases hres with hres | hres <;> dsimp only at hres <;> subst hres
            · dsimp only
              by_cases hcr : env.createOk = true
              · simp only [hcr, not_true, if_false]
                by_cases hen : env.encodeOk = true
                · simp only [hen, not_true, if_false]
                  exact ⟨by simp, by simp, by simp⟩
                · simp only [hen]
                  exact ⟨by simp, by simp, by simp⟩
              · simp only [hcr]
                exact ⟨by simp, by simp, by simp⟩
            · exact ⟨by simp, by simp, by simp⟩

/-- Grid environment for the C8 witness: every image loads as 640x480 and
the output steps succeed. -/
def c8Env : GridEnv :=
  { loadImage := fun _ => some (640, 480), createOk := true, encodeOk := true }

/-- Witness for C8 at concrete inputs: 3 frames on a 2x2 grid fail before
any effect; 4 frames on a 2x2 grid pass all validations. -/
theorem composeGrid_frame_count_witness :
    ((∃ e, (ComposeGrid c8Env ["f0.jpg".toList, "f1.jpg".toList, "f2.jpg".toList]
        2 2).1 = .error e) ∧
      (ComposeGrid c8Env ["f0.jpg".toList, "f1.jpg".toList, "f2.jpg".toList]
        2 2).2 = []) ∧
    ((ComposeGrid c8Env
        ["f0.jpg".toList, "f1.jpg".toList, "f2.jpg".toList, "f3.jpg".toList]
        2 2).1 ≠ .error .noFrames ∧
      (ComposeGrid c8Env
        ["f0.jpg".toList, "f1.jpg".toList, "f2.jpg".toList, "f3.jpg".toList]
        2 2).1 ≠ .error .badDims ∧
      (ComposeGrid c8Env
        ["f0.jpg".toList, "f1.jpg".toList, "f2.jpg".toList, "f3.jpg".toList]
        2 2).1 ≠ .error .mismatch) := by
  constructor
  · exact (composeGrid_frame_count c8Env
      ["f0.jpg".toList, "f1.jpg".toList, "f2.jpg".toList] 2 2
      (by decide) (by decide)).1 (by decide)
  · exact (composeGrid_frame_count c8Env
      ["f0.jpg".toList, "f1.jpg".toList, "f2.jpg".toList, "f3.jpg".toList] 2 2
      (by decide) (by decide)).2 (by decide)

/-! ## C10: the uploader batch loop -/

/-- Per-file outcomes of the external steps of the batch loop. -/
structure UFileEnv where
  /-- `os.Stat` of the file. -/
  statOk : Bool
  /-- `fileprocessor.ProcessVideo`: message id on success. -/
  videoResult : Option Int
  /-- `uploader.SendMedia`: message id on success. -/
  sendResult : Option Int
  /-- `MoveVideoFiles`/`MoveFile` outcome. -/
  moveOk : Bool

/-- `fileprocessor.Stats`. -/
structure Stats where
  Processed : Nat
  Succeeded : Nat
  Failed : Nat
  deriving DecidableEq

/-- Loop body of `main` (cmd/uploader/main.go lines 62-127) for one scanned
file: `Processed` is incremented first; every abort path increments
`Failed` and continues; the fall-through increments `Succeeded`.  A file
whose upload succeeded but whose post-upload move failed takes the
move-failure path and is counted as failed. -/
def processOneFile (env : List Char → UFileEnv) (stats : Stats)
    (filename : List Char) : Stats :=
  let stats1 : Stats := { stats with Processed := stats.Processed + 1 }
  match ParseFilename filename with
  | none => { stats1 with Failed := stats1.Failed + 1 }
  | some _ =>
    let e := env filename
    if ¬ e.statOk then { stats1 with Failed := stats1.Failed + 1 }
    else if IsVideoFile filename then
      match e.videoResult with
      | none => { stats1 with Failed := stats1.Failed + 1 }
      | some _ =>
        if ¬ e.moveOk then { stats1 with Failed := stats1.Failed + 1 }
        else { stats1 with Succeeded := stats1.Succeeded + 1 }
    else
      match e.sendResult with
      | none => { stats1 with Failed := stats1.Failed + 1 }
      | some _ =>
        if ¬ e.moveOk then { stats1 with Failed := stats1.Failed + 1 }
        else { stats1 with Succeeded := stats1.Succeeded + 1 }

/-- The batch loop over the scanned files, starting from zeroed statistics
(`stats := fileprocessor.Stats{}`). -/
def mainLoop (env : List Char → UFileEnv) (files : List (List Char)) : Stats :=
  files.foldl (processOneFile env) ⟨0, 0, 0⟩

theorem processOneFile_step (env : List Char → UFileEnv) (stats : Stats)
    (filename : List Char) :
    (processOneFile env stats filename).Processed = stats.Processed + 1 ∧
    (((processOneFile env stats filename).Succeeded = stats.Succeeded + 1 ∧
        (processOneFile env stats filename).Failed = stats.Failed) ∨
      ((processOneFile env stats filename).Failed = stats.Failed + 1 ∧
        (processOneFile env stats filename).Succeeded = stats.Succeeded)) := by
  unfold processOneFile
  rcases ParseFilename filename with _ | pd
  · simp
  · dsimp only
    by_cases hs : (env filename).statOk = true
    · by_cases hv : IsVideoFile filename = true
      · rcases (env filename).videoResult with _ | mid
        · simp [hs, hv]
        · by_cases hm : (env filename).moveOk = true
          · simp [hs, hv, hm]
          · simp [hs, hv, hm]
      · rcases (env filename).sendResult with _ | mid
        · simp [hs, hv]
        · by_cases hm : (env filename).moveOk = true
          · simp [hs, hv, hm]
          · simp [hs, hv, hm]
    · simp [hs]

theorem mainLoop_counts (env : List Char → UFileEnv) (files : List (List Char))
    (s : Stats) :
    (files.foldl (processOneFile env) s).Processed = s.Processed + files.length ∧
    (files.foldl (processOneFile env) s).Succeeded +
        (files.foldl (processOneFile env) s).Failed =
      s.Succeeded + s.Failed + files.length := by
  induction files generalizing s with
  | nil => simp
  | cons f rest ih =>
    simp only [List.foldl_cons, List.length_cons]
    obtain ⟨h1, h2⟩ := ih (processOneFile env s f)
    obtain ⟨hp, hsf⟩ := processOneFile_step env s f
    refine ⟨by rw [h1, hp]; omega, ?_⟩
    rcases hsf with ⟨ha, hb⟩ | ⟨ha, hb⟩
    · rw [h2, ha, hb]; omega
    · rw [h2, ha, hb]; omega

/-- **C10.** In the uploader batch loop, every scanned file increments
`Processed` exactly once and exactly one of `Succeeded`/`Failed`, so the
final summary from zeroed statistics satisfies
`Processed = Succeeded + Failed`; in particular, a file whose upload
succeeded but whose post-upload move failed is counted as failed, not
succeeded. -/
theorem batch_counters (env : List Char → UFileEnv) (files : List (List Char))
    (filename : List Char) (stats : Stats) :
    ((processOneFile env stats filename).Processed = stats.Processed + 1 ∧
      (((processOneFile env stats filename).Succeeded = stats.Succeeded + 1 ∧
          (processOneFile env stats filename).Failed = stats.Failed) ∨
        ((processOneFile env stats filename).Failed = stats.Failed + 1 ∧
          (processOneFile env stats filename).Succeeded = stats.Succeeded))) ∧
    ((mainLoop env files).Processed = files.length ∧
      (mainLoop env files).Processed =
        (mainLoop env files).Succeeded + (mainLoop env files).Failed) ∧
    (ParseFilename filename ≠ none → (env filename).statOk = true →
      (IsVideoFile filename = true → (env filename).videoResult.isSome = true) →
      (IsVideoFile filename = false → (env filename).sendResult.isSome = true) →
      (env filename).moveOk = false →
      (processOneFile env stats filename).Failed = stats.Failed + 1 ∧
      (processOneFile env stats filename).Succeeded = stats.Succeeded) := by
  refine ⟨processOneFile_step env stats filename, ?_, ?_⟩
  · obtain ⟨h1, h2⟩ := mainLoop_counts env files ⟨0, 0, 0⟩
    dsimp only at h1 h2
    unfold mainLoop
    constructor
    · omega
    · omega
  · intro hp hstat hv hnv hm
    unfold processOneFile
    rcases hpf : ParseFilename filename with _ | pd
    · exact absurd hpf hp
    · dsimp only
      by_cases hvf : IsVideoFile filename = true
      · have hvs := hv hvf
        rcases hvr : (env filename).videoResult with _ | mid
        · rw [hvr] at hvs
          simp at hvs
        · simp [hstat, hvf, hvr, hm]
      · have hns := hnv (Bool.eq_false_iff.mpr hvf)
        rcases hsr : (env filename).sendResult with _ | mid
        · rw [hsr] at hns
          simp at hns
        · simp [hstat, hvf, hsr, hm]

/-- Per-file environment for the C10 witness: upload succeeds, the
post-upload move fails. -/
def c10Env : List Char → UFileEnv := fun _ =>
  { statOk := true, videoResult := some 7, sendResult := some 7, moveOk := false }

/-- Witness for C10 at a concrete file: uploaded-but-move-failed counts as
failed, not succeeded, and the loop totals balance. -/
theorem batch_counters_witness :
    (processOneFile c10Env ⟨0, 0, 0⟩ "a_b.mp4".toList).Failed = 1 ∧
    (processOneFile c10Env ⟨0, 0, 0⟩ "a_b.mp4".toList).Succeeded = 0 ∧
    (processOneFile c10Env ⟨0, 0, 0⟩ "a_b.mp4".toList).Processed = 1 ∧
    (mainLoop c10Env ["a_b.mp4".toList]).Processed =
      (mainLoop c10Env ["a_b.mp4".toList]).Succeeded +
        (mainLoop c10Env ["a_b.mp4".toList]).Failed := by
  obtain ⟨hstep, hloop, hmove⟩ :=
    batch_counters c10Env ["a_b.mp4".toList] "a_b.mp4".toList ⟨0, 0, 0⟩
  obtain ⟨hf, hsu⟩ := hmove (by decide) rfl (fun _ => rfl) (fun _ => rfl) rfl
  exact ⟨hf, hsu, hstep.1, hloop.2⟩
